import Mathlib

/-!
Wiregost: the module subsystem and the persistence of listeners.

A shallow embedding of the module catalog, the per-user module stacks and the
stack registry of `server/core/modules.go` (namespace `core`) and of the
Persist functions of `server/c2/persistence.go` (namespace `c2`), followed by
theorems about them.

Modelling conventions.

* A Go `map[K]V` is a finite association list with unique keys (`GoMap`).
  Go maps are reference values: where the source relies on that (the registry
  of stacks), the map objects live in an explicit store and are named by their
  address.
* A value of the interface type `Module` is either the nil interface or a
  reference to a module object.  The objects live in a store (`World.objs`);
  what `Init` does to an object is a parameter (`ModuleImpl`), since the
  concrete modules are outside this package.  Every method call made on a
  module is appended to a trace (`World.calls`).
* A `sync.RWMutex` is explicit state.  It is not reentrant: `Lock` on a mutex
  that is already held never returns, which a sequential execution records as
  the outcome `Exec.blocked`.  A deferred `Unlock` runs when the function
  returns or panics.
* `error` is `Option String`, `none` being the nil error.
* In `core` strings are only compared, and are Lean strings.  In `c2` their
  bytes matter: a Go string is a sequence of bytes, valid UTF-8 or not.
  A JSON text is modelled by the value it denotes; the random source, the
  bucket store and the packages unicode/utf8, encoding/json and fmt are
  modelled as far as the Persist functions use them.
-/

namespace core

/-- Go maps: finite association lists with unique keys. -/
abbrev GoMap (K V : Type) := AList (fun _ : K => V)

/-- A value of the interface type `Module`: the nil interface, or a reference
to a module object. -/
inductive Module where
  | nil
  | obj (ref : Nat)
deriving DecidableEq, Repr

/-- Go `error` values; `none` is the nil error. -/
abbrev error := Option String

/-- State of a `sync.RWMutex` as used here (only `Lock` and `Unlock`). -/
inductive RWMutex where
  | unlocked
  | locked
deriving DecidableEq, Repr

/-- The method `Lock`: succeeds on a free mutex; on a held mutex the caller waits for ever
(`none`). -/
def RWMutex.Lock : RWMutex → Option RWMutex
  | .unlocked => some .locked
  | .locked => none

/-- The method `Unlock`, called on a held mutex. -/
def RWMutex.Unlock : RWMutex → RWMutex
  | _ => .unlocked

/-- A method call on a module object, as recorded in the trace. -/
inductive Call where
  | Init (recv : Nat) (userID : Int)
  | Run (recv : Nat) (arg : String)
  | SetOption (recv : Nat) (name : String) (value : String)
  | ToProtobuf (recv : Nat)
deriving DecidableEq, Repr

/-- The behaviour of the `Init` method of the module objects: from the
receiver, its state and the user ID to the new state and the returned error. -/
structure ModuleImpl (σ : Type) where
  Init : Nat → σ → Int → σ × error

/-- The type `modules` (the catalog). -/
structure modules where
  Loaded : GoMap String Module
  mutex : RWMutex
deriving DecidableEq

/-- The type `stack`. -/
structure stack where
  Loaded : GoMap String Module
  mutex : RWMutex
deriving DecidableEq

/-- The package state the module operations act on: the global `Modules`, the
store of module objects and the trace of method calls. -/
structure World (σ : Type) where
  Modules : modules
  objs : Nat → σ
  calls : List Call

/-- Outcome of a call: it returned `r`, it waits for ever on a mutex, or it
panicked.  Each carries the state reached. -/
inductive Exec (ρ S : Type) where
  | ret (r : ρ) (st : S)
  | blocked (st : S)
  | panicked (st : S)

/-- The value a call returned, if it returned. -/
def Exec.result {ρ S : Type} : Exec ρ S → Option ρ
  | .ret r _ => some r
  | .blocked _ => none
  | .panicked _ => none

/-- The state a call reached. -/
def Exec.state {ρ S : Type} : Exec ρ S → S
  | .ret _ st => st
  | .blocked st => st
  | .panicked st => st

/-- Whether the call returned. -/
def Exec.returns {ρ S : Type} : Exec ρ S → Bool
  | .ret _ _ => true
  | .blocked _ => false
  | .panicked _ => false

/-- Whether the call waits for ever on a mutex. -/
def Exec.blocks {ρ S : Type} : Exec ρ S → Bool
  | .ret _ _ => false
  | .blocked _ => true
  | .panicked _ => false

/-- Write to the field `Modules.mutex`. -/
def World.setMutex {σ : Type} (w : World σ) (m : RWMutex) : World σ :=
  { w with Modules := { w.Modules with mutex := m } }

/-- GetModule - get module by path. -/
def GetModule {σ : Type} (w : World σ) (path : String) :
    Exec (Module × error) (World σ) :=
  match w.Modules.mutex.Lock with
  | none => .blocked w
  | some m =>
    let w1 := w.setMutex m
    match w1.Modules.Loaded.lookup path with
    | none =>
      .ret (Module.nil, some "No module for given path")
        (w1.setMutex w1.Modules.mutex.Unlock)
    | some mod => .ret (mod, none) (w1.setMutex w1.Modules.mutex.Unlock)

/-- AddModule - add a module to the list of available modules. -/
def AddModule {σ : Type} (w : World σ) (path : String) (mod : Module) :
    Exec error (World σ) :=
  match w.Modules.mutex.Lock with
  | none => .blocked w
  | some m =>
    let w1 := w.setMutex m
    let w2 : World σ :=
      { w1 with Modules := { w1.Modules with Loaded := w1.Modules.Loaded.insert path mod } }
    .ret none (w2.setMutex w2.Modules.mutex.Unlock)

/-- The call `mod.Init(userID)` on an object: the object state is replaced by
the one `Init` leaves, the call is recorded, the returned error is the result. -/
def callInit {σ : Type} (impl : ModuleImpl σ) (w : World σ) (ref : Nat) (userID : Int) :
    error × World σ :=
  let r := impl.Init ref (w.objs ref) userID
  (r.2, { w with objs := Function.update w.objs ref r.1,
                 calls := w.calls ++ [Call.Init ref userID] })

/-- LoadModule - load a module onto the stack, by fetching it into Modules. -/
def stack.LoadModule {σ : Type} (impl : ModuleImpl σ) (s : stack) (w : World σ)
    (userID : Int) (path : String) : Exec error (stack × World σ) :=
  match s.mutex.Lock with
  | none => .blocked (s, w)
  | some m =>
    let s1 : stack := { s with mutex := m }
    match GetModule w path with
    | .blocked w1 => .blocked (s1, w1)
    | .panicked w1 => .panicked ({ s1 with mutex := s1.mutex.Unlock }, w1)
    | .ret (mod, err) w1 =>
      match err with
      | some e => .ret (some e) ({ s1 with mutex := s1.mutex.Unlock }, w1)
      | none =>
        match mod with
        | .nil => .panicked ({ s1 with mutex := s1.mutex.Unlock }, w1)
        | .obj ref =>
          -- the error returned by Init is dropped
          let w2 := (callInit impl w1 ref userID).2
          let s2 : stack := { s1 with Loaded := s1.Loaded.insert path mod }
          .ret none ({ s2 with mutex := s2.mutex.Unlock }, w2)

/-- PopModule - unload a module from stack. -/
def stack.PopModule {σ : Type} (s : stack) (w : World σ) (path : String) :
    Exec error (stack × World σ) :=
  match s.mutex.Lock with
  | none => .blocked (s, w)
  | some m =>
    let s1 : stack := { s with mutex := m }
    let s2 : stack := { s1 with Loaded := s1.Loaded.erase path }
    .ret none ({ s2 with mutex := s2.mutex.Unlock }, w)

/-- The map read `(*s.Loaded)[path]` without the `ok` flag: the zero value (the
nil interface) when the key is absent. -/
def stack.index (s : stack) (path : String) : core.Module :=
  match s.Loaded.lookup path with
  | some mod => mod
  | none => .nil

/-- Module - get a module by path (load it onto the stack if needed). -/
def stack.Module {σ : Type} (impl : ModuleImpl σ) (s : stack) (w : World σ)
    (userID : Int) (path : String) : Exec (core.Module × error) (stack × World σ) :=
  match s.mutex.Lock with
  | none => .blocked (s, w)
  | some m =>
    let s1 : stack := { s with mutex := m }
    match s1.Loaded.lookup path with
    | none =>
      -- the result of LoadModule is dropped
      match stack.LoadModule impl s1 w userID path with
      | .blocked st => .blocked st
      | .panicked (s2, w2) => .panicked ({ s2 with mutex := s2.mutex.Unlock }, w2)
      | .ret _ (s2, w2) =>
        .ret (s2.index path, none) ({ s2 with mutex := s2.mutex.Unlock }, w2)
    | some mod => .ret (mod, none) ({ s1 with mutex := s1.mutex.Unlock }, w)

/-- A client certificate, as far as LoadStacks reads it: `c.Subject.CommonName`. -/
structure Certificate where
  CommonName : String
deriving DecidableEq, Repr

/-- A workspace record, as far as LoadStacks reads it: `w.ID`. -/
structure Workspace where
  ID : Nat
deriving DecidableEq, Repr

/-- The function `unique`: the entries in the order of their first occurrence,
the map `keys` recording those already seen. -/
def unique (intSlice : List String) : List String :=
  (intSlice.foldl
    (fun (acc : GoMap String Bool × List String) entry =>
      match acc.1.lookup entry with
      | some _ => acc
      | none => (acc.1.insert entry true, acc.2 ++ [entry]))
    ((∅ : GoMap String Bool), ([] : List String))).2

/-- The global `Stacks`, of type `map[uint]map[string]*stack`.  The inner maps
are reference values: `maps` is the store of the inner map objects and
`Stacks` holds, for a workspace ID, the address of its inner map. -/
structure Registry where
  Stacks : GoMap Nat Nat
  maps : List (GoMap String stack)

/-- The double map read `(*Stacks)[workspace][user]` with its `ok` flag. -/
def Registry.find (r : Registry) (workspace : Nat) (user : String) : Option stack :=
  match r.Stacks.lookup workspace with
  | none => none
  | some a =>
    match r.maps[a]? with
    | none => none
    | some m => m.lookup user

/-- The users that have a stack under a workspace ID. -/
def Registry.usersOf (r : Registry) (workspace : Nat) : List String :=
  match r.Stacks.lookup workspace with
  | none => []
  | some a =>
    match r.maps[a]? with
    | none => []
    | some m => m.keys

/-- Write `m[user] = st` to the inner map object at address `a`. -/
def Registry.store (r : Registry) (a : Nat) (user : String) (st : stack) : Registry :=
  { r with maps := r.maps.set a ((r.maps.getD a ∅).insert user st) }

/-- The body of the outer loop of LoadStacks for one workspace: a fresh inner
map is allocated and its reference stored under `w.ID`; then one empty stack
per user is written through that reference. -/
def LoadStacks.workspace (users : List String) (r : Registry) (w : Workspace) : Registry :=
  let a := r.maps.length
  let r1 : Registry := { Stacks := r.Stacks.insert w.ID a, maps := r.maps ++ [∅] }
  users.foldl
    (fun r2 user => r2.store a user { Loaded := ∅, mutex := RWMutex.unlocked }) r1

/-- LoadStacks - inits an empty stack for each user, in each workspace.  The
certificates and the workspaces come from outside the package and are
arguments here. -/
def LoadStacks (clientCerts : List Certificate) (workspaces : List Workspace)
    (r : Registry) : error × Registry :=
  let users := unique (clientCerts.foldl (fun users c => users ++ [c.CommonName]) [])
  (none, workspaces.foldl (LoadStacks.workspace users) r)

/-- The inner map that the inner loop of LoadStacks leaves for a workspace: one
empty stack per user. -/
def freshStacks (users : List String) : GoMap String stack :=
  users.foldl (fun m user => m.insert user { Loaded := ∅, mutex := RWMutex.unlocked }) ∅

/-- The (workspace ID, user) pairs that have a stack in the registry under the
given workspace IDs, each ID taken once. -/
def Registry.pairs (r : Registry) (ids : List Nat) : List (Nat × String) :=
  (ids.dedup.map (fun k => (r.usersOf k).map (fun u => (k, u)))).flatten

/-- Every inner map reference held in `Stacks` names an allocated map object. -/
def Registry.wellFormed (r : Registry) : Prop :=
  ∀ e ∈ r.Stacks.entries, e.2 < r.maps.length

instance (r : Registry) : Decidable r.wellFormed :=
  inferInstanceAs (Decidable (∀ e ∈ r.Stacks.entries, e.2 < r.maps.length))

/-- The strings of a list in the order of their first occurrence: the head
comes first, followed by the first occurrences of the tail without the head. -/
def firstOccurrences : List String → List String
  | [] => []
  | x :: xs => x :: (firstOccurrences xs).filter (fun y => y ≠ x)

/-- The operations of the module subsystem, with their arguments. -/
inductive Op where
  | GetModule (path : String)
  | AddModule (path : String) (mod : core.Module)
  | LoadModule (userID : Int) (path : String)
  | PopModule (path : String)
  | Module (userID : Int) (path : String)
  | LoadStacks (clientCerts : List Certificate) (workspaces : List Workspace)

/-- The state of the package: the catalog with the module objects, the stack
that the stack methods are called on, and the registry of stacks. -/
structure Package (σ : Type) where
  world : World σ
  s : stack
  Stacks : Registry

/-- The state an operation reaches, whether it returns, waits for ever or
panics. -/
def Op.run {σ : Type} (impl : ModuleImpl σ) : Op → Package σ → Package σ
  | .GetModule path, pk => { pk with world := (core.GetModule pk.world path).state }
  | .AddModule path mod, pk => { pk with world := (core.AddModule pk.world path mod).state }
  | .LoadModule userID path, pk =>
    { pk with s := (stack.LoadModule impl pk.s pk.world userID path).state.1,
              world := (stack.LoadModule impl pk.s pk.world userID path).state.2 }
  | .PopModule path, pk =>
    { pk with s := (stack.PopModule pk.s pk.world path).state.1,
              world := (stack.PopModule pk.s pk.world path).state.2 }
  | .Module userID path, pk =>
    { pk with s := (stack.Module impl pk.s pk.world userID path).state.1,
              world := (stack.Module impl pk.s pk.world userID path).state.2 }
  | .LoadStacks clientCerts workspaces, pk =>
    { pk with Stacks := (core.LoadStacks clientCerts workspaces pk.Stacks).2 }

/-! ## Example modules, used as concrete inputs -/

/-- A module implementation whose `Init` binds the user ID to the object (the
object state is the ID last bound) and succeeds. -/
def bindingImpl : ModuleImpl Int where
  Init := fun _ _ userID => (userID, none)

/-- A module implementation whose `Init` fails and leaves the object as it is. -/
def failingImpl : ModuleImpl Int where
  Init := fun _ st _ => (st, some "init failed")

/-- A state whose catalog holds the single entry `scan`, the object 0, with no
call made yet. -/
def scanWorld : World Int where
  Modules := { Loaded := (∅ : GoMap String Module).insert "scan" (Module.obj 0),
               mutex := RWMutex.unlocked }
  objs := fun _ => 0
  calls := []

/-- A state whose catalog is empty. -/
def emptyWorld : World Int where
  Modules := { Loaded := ∅, mutex := RWMutex.unlocked }
  objs := fun _ => 0
  calls := []

/-- A stack with nothing loaded. -/
def emptyStack : stack where
  Loaded := ∅
  mutex := RWMutex.unlocked

/-- A second stack, holding the object 5 under `post`. -/
def otherStack : stack where
  Loaded := (∅ : GoMap String Module).insert "post" (Module.obj 5)
  mutex := RWMutex.unlocked

/-- A registry that holds, under workspace 7, a stack of alice with `scan`
loaded. -/
def usedRegistry : Registry where
  Stacks := (∅ : GoMap Nat Nat).insert 7 0
  maps := [(∅ : GoMap String stack).insert "alice"
    { Loaded := (∅ : GoMap String Module).insert "scan" (Module.obj 0),
      mutex := RWMutex.unlocked }]

/-- A state whose catalog holds the single entry `post`, the object 6. -/
def postWorld : World Int where
  Modules := { Loaded := (∅ : GoMap String Module).insert "post" (Module.obj 6),
               mutex := RWMutex.unlocked }
  objs := fun _ => 0
  calls := []

end core

/-! # Persistence of listeners (server/c2/persistence.go) -/

namespace c2

/-- A Go string: a sequence of bytes, not necessarily valid UTF-8. -/
abbrev GoString := List Nat

/-- The bytes of a string literal of the source (all of them are ASCII). -/
def lit (s : String) : GoString := s.data.map Char.toNat

/-- ListenerBucketName - stores listeners. -/
def ListenerBucketName : GoString := lit "listeners"

/-- ListenerNamespace - listener namespace. -/
def ListenerNamespace : GoString := lit "listener"

/-- ListenerConfig - stores the configuration for a listener.  `ID` is an
int32, `LPort` a uint16. -/
structure ListenerConfig where
  ID : Int := 0
  LHost : GoString := []
  LPort : Nat := 0
  Protocol : GoString := []
  Name : GoString := []
  Description : GoString := []
  DNSDomains : List GoString := []
  EnableCanaries : Bool := false
  HTTPDomain : GoString := []
  Secure : Bool := false
  Certificate : GoString := []
  Key : GoString := []
  LetsEncrypt : Bool := false
  Website : GoString := []
  ImplantStage : GoString := []
deriving DecidableEq, Repr

/-- Modelled from the spec: the type `core.Job`, which is declared outside the
source files at hand.  The spec describes it as a record with at least `Port`,
`Protocol`, `Name` and `Description`; `Port` is assigned to the uint16 field
`LPort`. -/
structure Job where
  Port : Nat
  Protocol : GoString
  Name : GoString
  Description : GoString
deriving DecidableEq, Repr

/-- The function `rand.Int31` of math/rand: the top 31 bits of the
non-negative 63-bit integer `int63` that the random source delivers. -/
def rand.Int31 (int63 : Nat) : Nat := int63 % 2 ^ 63 / 2 ^ 32

/-! ### UTF-8, as in the package unicode/utf8

Shifts and masks are written as multiplications, divisions and remainders. -/

/-- RuneError, the replacement character U+FFFD. -/
def RuneError : Nat := 0xFFFD

/-- The table `first` with `acceptRanges`: for a leading byte of a sequence of
several bytes, the length of the sequence and the range accepted for the
second byte; `none` for an ASCII byte and for a byte that cannot lead. -/
def first (s0 : Nat) : Option (Nat × Nat × Nat) :=
  if 0xC2 ≤ s0 ∧ s0 ≤ 0xDF then some (2, 0x80, 0xBF)
  else if s0 = 0xE0 then some (3, 0xA0, 0xBF)
  else if 0xE1 ≤ s0 ∧ s0 ≤ 0xEC then some (3, 0x80, 0xBF)
  else if s0 = 0xED then some (3, 0x80, 0x9F)
  else if 0xEE ≤ s0 ∧ s0 ≤ 0xEF then some (3, 0x80, 0xBF)
  else if s0 = 0xF0 then some (4, 0x90, 0xBF)
  else if 0xF1 ≤ s0 ∧ s0 ≤ 0xF3 then some (4, 0x80, 0xBF)
  else if s0 = 0xF4 then some (4, 0x80, 0x8F)
  else none

/-- The function `utf8.DecodeRuneInString`: the first rune of `s` and its width
in bytes; `(RuneError, 1)` when `s` does not start with a valid encoding, and
`(RuneError, 0)` when `s` is empty. -/
def DecodeRuneInString : GoString → Nat × Nat
  | [] => (RuneError, 0)
  | s0 :: t =>
    match first s0 with
    | none => if s0 < 0x80 then (s0, 1) else (RuneError, 1)
    | some (sz, lo, hi) =>
      match t with
      | [] => (RuneError, 1)
      | s1 :: t1 =>
        if s1 < lo ∨ hi < s1 then (RuneError, 1)
        else if sz ≤ 2 then (s0 % 32 * 64 + s1 % 64, 2)
        else
          match t1 with
          | [] => (RuneError, 1)
          | s2 :: t2 =>
            if s2 < 0x80 ∨ 0xBF < s2 then (RuneError, 1)
            else if sz ≤ 3 then (s0 % 16 * 4096 + s1 % 64 * 64 + s2 % 64, 3)
            else
              match t2 with
              | [] => (RuneError, 1)
              | s3 :: _ =>
                if s3 < 0x80 ∨ 0xBF < s3 then (RuneError, 1)
                else (s0 % 8 * 262144 + s1 % 64 * 4096 + s2 % 64 * 64 + s3 % 64, 4)

/-- The function `utf8.AppendRune`, on an empty buffer: the UTF-8 encoding of
the rune `r`, which is that of RuneError when `r` is out of range or a
surrogate. -/
def AppendRune (r : Nat) : GoString :=
  if r ≤ 0x7F then [r]
  else if r ≤ 0x7FF then [0xC0 + r / 64, 0x80 + r % 64]
  else if 0x10FFFF < r ∨ (0xD800 ≤ r ∧ r ≤ 0xDFFF) then [0xEF, 0xBF, 0xBD]
  else if r ≤ 0xFFFF then [0xE0 + r / 4096, 0x80 + r / 64 % 64, 0x80 + r % 64]
  else [0xF0 + r / 262144, 0x80 + r / 4096 % 64, 0x80 + r / 64 % 64, 0x80 + r % 64]

/-- The loop of `utf8.ValidString`, with the number of bytes as fuel: every
position decodes to a rune without error. -/
def ValidString.loop : Nat → GoString → Bool
  | 0, s => s.isEmpty
  | _ + 1, [] => true
  | fuel + 1, s0 :: t =>
    let d := DecodeRuneInString (s0 :: t)
    if d.1 = RuneError ∧ d.2 = 1 then false
    else ValidString.loop fuel ((s0 :: t).drop d.2)

/-- The function `utf8.ValidString`: whether `s` consists of valid UTF-8
encodings only. -/
def ValidString (s : GoString) : Bool := ValidString.loop s.length s

/-! ### JSON, as in the package encoding/json

A JSON text is modelled by the value it denotes: an object is the list of its
members in the order written, a JSON string is a sequence of Unicode code
points.  The rendering of a value as bytes, with its quoting and escapes, and
the parsing of those bytes are inverse to each other and are not modelled. -/

/-- The JSON values a listener record is made of. -/
inductive JSONValue where
  | number (n : Int)
  | string (runes : List Nat)
  | bool (b : Bool)
  | strings (xs : List (List Nat))
deriving DecidableEq, Repr

/-- A JSON object: its members, in the order written. -/
abbrev JSONObject := List (String × JSONValue)

/-- The code points json.Marshal writes for a Go string, with the number of
bytes as fuel: rune by rune, each byte that does not start a valid encoding
being replaced by U+FFFD. -/
def jsonString.loop : Nat → GoString → List Nat
  | 0, _ => []
  | _ + 1, [] => []
  | fuel + 1, s0 :: t =>
    let d := DecodeRuneInString (s0 :: t)
    d.1 :: jsonString.loop fuel ((s0 :: t).drop d.2)

/-- The JSON string json.Marshal writes for a Go string. -/
def jsonString (s : GoString) : List Nat := jsonString.loop s.length s

/-- The Go string json.Unmarshal stores for a JSON string: the UTF-8 encoding
of its code points. -/
def goString (runes : List Nat) : GoString := (runes.map AppendRune).flatten

/-- The option `omitempty` of a struct tag: the member is left out when the
field is empty (false, 0, a string or a slice of length 0). -/
def omitempty (empty : Bool) (v : JSONValue) : Option JSONValue :=
  if empty then none else some v

/-- The members json.Marshal considers for a ListenerConfig, by the tags of the
struct, in the order of the fields; `none` marks a member that is left out. -/
def ListenerConfig.members (l : ListenerConfig) : List (String × Option JSONValue) :=
  [ ("id", some (.number l.ID)),
    ("lhost", omitempty l.LHost.isEmpty (.string (jsonString l.LHost))),
    ("lport", omitempty (l.LPort == 0) (.number l.LPort)),
    ("protocol", omitempty l.Protocol.isEmpty (.string (jsonString l.Protocol))),
    ("name", omitempty l.Name.isEmpty (.string (jsonString l.Name))),
    ("description", omitempty l.Description.isEmpty (.string (jsonString l.Description))),
    ("dns_domains", omitempty l.DNSDomains.isEmpty (.strings (l.DNSDomains.map jsonString))),
    ("enable_canaries", omitempty (!l.EnableCanaries) (.bool l.EnableCanaries)),
    ("http_domain", omitempty l.HTTPDomain.isEmpty (.string (jsonString l.HTTPDomain))),
    ("secure", omitempty (!l.Secure) (.bool l.Secure)),
    ("certificate", omitempty l.Certificate.isEmpty (.string (jsonString l.Certificate))),
    ("key", omitempty l.Key.isEmpty (.string (jsonString l.Key))),
    ("lets_encrypt", omitempty (!l.LetsEncrypt) (.bool l.LetsEncrypt)),
    ("website", omitempty l.Website.isEmpty (.string (jsonString l.Website))),
    ("implant_stage", omitempty l.ImplantStage.isEmpty (.string (jsonString l.ImplantStage))) ]

/-- The members that are written, out of those considered. -/
def written : List (String × Option JSONValue) → JSONObject
  | [] => []
  | (_, none) :: rest => written rest
  | (k, some v) :: rest => (k, v) :: written rest

/-- The call `json.Marshal(listener)` on a ListenerConfig: it cannot fail on
this type; the result is the object written. -/
def Marshal (l : ListenerConfig) : JSONObject := written l.members

/-- The member of an object under a name; of several with the same name the
last one counts, as for json.Unmarshal. -/
def JSONObject.field : JSONObject → String → Option JSONValue
  | [], _ => none
  | (k, v) :: rest, name =>
    match JSONObject.field rest name with
    | some v2 => some v2
    | none => if k = name then some v else none

/-- Decoding of a member into a string field; an absent member leaves the zero
value. -/
def decodeString : Option JSONValue → Except String GoString
  | none => .ok []
  | some (.string runes) => .ok (goString runes)
  | some _ => .error "json: cannot unmarshal into Go value of type string"

/-- Decoding of a member into a bool field. -/
def decodeBool : Option JSONValue → Except String Bool
  | none => .ok false
  | some (.bool b) => .ok b
  | some _ => .error "json: cannot unmarshal into Go value of type bool"

/-- Decoding of a member into a uint16 field. -/
def decodeUint16 : Option JSONValue → Except String Nat
  | none => .ok 0
  | some (.number n) =>
    if 0 ≤ n ∧ n < 2 ^ 16 then .ok n.toNat
    else .error "json: cannot unmarshal number into Go value of type uint16"
  | some _ => .error "json: cannot unmarshal into Go value of type uint16"

/-- Decoding of a member into an int32 field. -/
def decodeInt32 : Option JSONValue → Except String Int
  | none => .ok 0
  | some (.number n) =>
    if -(2 ^ 31) ≤ n ∧ n < 2 ^ 31 then .ok n
    else .error "json: cannot unmarshal number into Go value of type int32"
  | some _ => .error "json: cannot unmarshal into Go value of type int32"

/-- Decoding of a member into a field of type slice of strings. -/
def decodeStrings : Option JSONValue → Except String (List GoString)
  | none => .ok []
  | some (.strings xs) => .ok (xs.map goString)
  | some _ => .error "json: cannot unmarshal into Go value of type []string"

/-- The call `json.Unmarshal(raw, &ListenerConfig{})`: each field is decoded
from the member its tag names, and keeps its zero value when there is none. -/
def Unmarshal (raw : JSONObject) : Except String ListenerConfig := do
  let id ← decodeInt32 (raw.field "id")
  let lhost ← decodeString (raw.field "lhost")
  let lport ← decodeUint16 (raw.field "lport")
  let protocol ← decodeString (raw.field "protocol")
  let name ← decodeString (raw.field "name")
  let description ← decodeString (raw.field "description")
  let dnsDomains ← decodeStrings (raw.field "dns_domains")
  let enableCanaries ← decodeBool (raw.field "enable_canaries")
  let httpDomain ← decodeString (raw.field "http_domain")
  let secure ← decodeBool (raw.field "secure")
  let certificate ← decodeString (raw.field "certificate")
  let key ← decodeString (raw.field "key")
  let letsEncrypt ← decodeBool (raw.field "lets_encrypt")
  let website ← decodeString (raw.field "website")
  let implantStage ← decodeString (raw.field "implant_stage")
  return { ID := id, LHost := lhost, LPort := lport, Protocol := protocol, Name := name,
           Description := description, DNSDomains := dnsDomains,
           EnableCanaries := enableCanaries, HTTPDomain := httpDomain, Secure := secure,
           Certificate := certificate, Key := key, LetsEncrypt := letsEncrypt,
           Website := website, ImplantStage := implantStage }

/-! ### Formatting, as in the package fmt -/

/-- The verb `%d` on an unsigned integer: its decimal digits. -/
def decimal (n : Nat) : GoString := lit (Nat.repr n)

/-- The verb `%d` on a signed integer. -/
def decimalInt (i : Int) : GoString :=
  if i < 0 then lit "-" ++ decimal i.natAbs else decimal i.toNat

/-- The call `fmt.Sprintf("%s.%s_%s-%d_%d", ...)` made by every Persist
function on the namespace and on the fields of the listener. -/
def Sprintf (ns proto host : GoString) (port : Nat) (id : Int) : GoString :=
  ns ++ lit "." ++ proto ++ lit "_" ++ host ++ lit "-" ++ decimal port ++ lit "_"
    ++ decimalInt id

/-! ### The store, as the Persist functions see the package db -/

/-- A bucket: what its method `Set` returns for a key and a value. -/
structure Bucket where
  Set : GoString → JSONObject → core.error

/-- The package db: what `db.GetBucket` returns for a bucket name. -/
structure DB where
  GetBucket : GoString → Except String Bucket

/-- What a Persist function did: the error it returned, and the call
`bucket.Set(key, rawListener)` it made, if it made one. -/
structure Persisted where
  err : core.error
  set : Option (GoString × JSONObject)

/-- PersistMTLS - mTLS listener.  `int63` is what the random source delivers to
`rand.Int31`; the log line is left out. -/
def PersistMTLS (db : DB) (int63 : Nat) (job : Job) (lhost : GoString) : Persisted :=
  let listener : ListenerConfig :=
    { ID := rand.Int31 int63, LHost := lhost, LPort := job.Port, Protocol := job.Protocol,
      Name := job.Name, Description := job.Description }
  match db.GetBucket ListenerBucketName with
  | .error err => { err := some err, set := none }
  | .ok bucket =>
    let rawListener := Marshal listener
    let key := Sprintf ListenerNamespace listener.Protocol listener.LHost listener.LPort
      listener.ID
    { err := bucket.Set key rawListener, set := some (key, rawListener) }

/-- PersistDNS - DNS. -/
def PersistDNS (db : DB) (int63 : Nat) (job : Job) (enableCanaries : Bool)
    (dnsDomains : List GoString) : Persisted :=
  let listener : ListenerConfig :=
    { ID := rand.Int31 int63, LPort := job.Port, Protocol := job.Protocol,
      Name := job.Name, Description := job.Description, DNSDomains := dnsDomains,
      EnableCanaries := enableCanaries }
  match db.GetBucket ListenerBucketName with
  | .error err => { err := some err, set := none }
  | .ok bucket =>
    let rawListener := Marshal listener
    let key := Sprintf ListenerNamespace listener.Protocol listener.LHost listener.LPort
      listener.ID
    { err := bucket.Set key rawListener, set := some (key, rawListener) }

/-- PersistHTTPS - HTTPS. -/
def PersistHTTPS (db : DB) (int63 : Nat) (job : Job) (lhost cert key : GoString)
    (secure : Bool) (domain website : GoString) (letsEncrypt : Bool) : Persisted :=
  let listener : ListenerConfig :=
    { ID := rand.Int31 int63, LHost := lhost, LPort := job.Port, Protocol := job.Protocol,
      Name := job.Name, Description := job.Description, Secure := secure,
      Certificate := cert, Key := key, HTTPDomain := domain, Website := website,
      LetsEncrypt := letsEncrypt }
  match db.GetBucket ListenerBucketName with
  | .error err => { err := some err, set := none }
  | .ok bucket =>
    let rawListener := Marshal listener
    let key := Sprintf ListenerNamespace listener.Protocol listener.LHost listener.LPort
      listener.ID
    { err := bucket.Set key rawListener, set := some (key, rawListener) }

/-- PersistTCPStager - TCP stager. -/
def PersistTCPStager (db : DB) (int63 : Nat) (job : Job) (lhost implantStage : GoString) :
    Persisted :=
  let listener : ListenerConfig :=
    { ID := rand.Int31 int63, LHost := lhost, LPort := job.Port, Protocol := job.Protocol,
      Name := job.Name, Description := job.Description, ImplantStage := implantStage }
  match db.GetBucket ListenerBucketName with
  | .error err => { err := some err, set := none }
  | .ok bucket =>
    let rawListener := Marshal listener
    let key := Sprintf ListenerNamespace listener.Protocol listener.LHost listener.LPort
      listener.ID
    { err := bucket.Set key rawListener, set := some (key, rawListener) }

/-- PersistHTTPStager - HTTP. -/
def PersistHTTPStager (db : DB) (int63 : Nat) (job : Job) (lhost implantStage : GoString) :
    Persisted :=
  let listener : ListenerConfig :=
    { ID := rand.Int31 int63, LHost := lhost, LPort := job.Port, Protocol := job.Protocol,
      Name := job.Name, Description := job.Description, ImplantStage := implantStage }
  match db.GetBucket ListenerBucketName with
  | .error err => { err := some err, set := none }
  | .ok bucket =>
    let rawListener := Marshal listener
    let key := Sprintf ListenerNamespace listener.Protocol listener.LHost listener.LPort
      listener.ID
    { err := bucket.Set key rawListener, set := some (key, rawListener) }

/-- PersistHTTPSStager - HTTPS. -/
def PersistHTTPSStager (db : DB) (int63 : Nat) (job : Job) (lhost implantStage : GoString) :
    Persisted :=
  let listener : ListenerConfig :=
    { ID := rand.Int31 int63, LHost := lhost, LPort := job.Port, Protocol := job.Protocol,
      Name := job.Name, Description := job.Description, ImplantStage := implantStage }
  match db.GetBucket ListenerBucketName with
  | .error err => { err := some err, set := none }
  | .ok bucket =>
    let rawListener := Marshal listener
    let key := Sprintf ListenerNamespace listener.Protocol listener.LHost listener.LPort
      listener.ID
    { err := bucket.Set key rawListener, set := some (key, rawListener) }

/-- The ranges of the integer fields of a ListenerConfig: `ID` is an int32,
`LPort` a uint16. -/
def ListenerConfig.inRange (l : ListenerConfig) : Prop :=
  -(2 ^ 31) ≤ l.ID ∧ l.ID < 2 ^ 31 ∧ l.LPort < 2 ^ 16

/-- Whether every string of a ListenerConfig is valid UTF-8. -/
def ListenerConfig.validUTF8 (l : ListenerConfig) : Bool :=
  ValidString l.LHost && ValidString l.Protocol && ValidString l.Name
    && ValidString l.Description && l.DNSDomains.all ValidString
    && ValidString l.HTTPDomain && ValidString l.Certificate && ValidString l.Key
    && ValidString l.Website && ValidString l.ImplantStage

/-- The key format `<namespace>.<protocol>_<host>-<port>_<id>`, the namespace
being `listener`. -/
def keyFormat (protocol host : GoString) (port id : Nat) : GoString :=
  lit "listener." ++ protocol ++ lit "_" ++ host ++ lit "-" ++ decimal port ++ lit "_"
    ++ decimal id

/-! ### Example inputs -/

/-- A store whose bucket accepts every write. -/
def okDB : DB where
  GetBucket := fun _ => .ok { Set := fun _ _ => none }

/-- The job of an mTLS listener on port 8443, named op1. -/
def mtlsJob : Job where
  Port := 8443
  Protocol := lit "mtls"
  Name := lit "op1"
  Description := lit "test"

/-- The same job, named by the single byte 0xFF, which is not valid UTF-8. -/
def badNameJob : Job where
  Port := 8443
  Protocol := lit "mtls"
  Name := [0xFF]
  Description := lit "test"

end c2

namespace core

/-! ## The catalog -/

theorem setMutex_self {σ : Type} (w : World σ) (h : w.Modules.mutex = .unlocked) :
    (w.setMutex RWMutex.locked).setMutex RWMutex.unlocked = w := by
  cases w with
  | mk M o c =>
    cases M with
    | mk L mu =>
      simp only [World.setMutex] at h ⊢
      subst h
      rfl

theorem GetModule_hit {σ : Type} (w : World σ) (p : String) (m : Module)
    (hfree : w.Modules.mutex = .unlocked) (h : w.Modules.Loaded.lookup p = some m) :
    GetModule w p = .ret (m, none) w := by
  have hs := setMutex_self w hfree
  simp only [GetModule, hfree, RWMutex.Lock, World.setMutex, RWMutex.Unlock, h] at hs ⊢
  rw [hs]

theorem GetModule_miss {σ : Type} (w : World σ) (p : String)
    (hfree : w.Modules.mutex = .unlocked) (h : w.Modules.Loaded.lookup p = none) :
    GetModule w p = .ret (Module.nil, some "No module for given path") w := by
  have hs := setMutex_self w hfree
  simp only [GetModule, hfree, RWMutex.Lock, World.setMutex, RWMutex.Unlock, h] at hs ⊢
  rw [hs]

theorem AddModule_eq {σ : Type} (w : World σ) (p : String) (m : Module)
    (hfree : w.Modules.mutex = .unlocked) :
    AddModule w p m = .ret none
      { w with Modules := { Loaded := w.Modules.Loaded.insert p m, mutex := .unlocked } } := by
  simp only [AddModule, hfree, RWMutex.Lock, World.setMutex, RWMutex.Unlock]

/-- C1: for every catalog state (its mutex free, as between calls), every path
p and every two modules m1 and m2, AddModule(p, m1) and then AddModule(p, m2)
both return a nil error, and GetModule(p) afterwards returns m2 with a nil
error. -/
theorem AddModule_last_write_wins {σ : Type} (w : World σ) (p : String) (m1 m2 : Module)
    (hfree : w.Modules.mutex = .unlocked) :
    ∃ w1 w2, AddModule w p m1 = .ret none w1 ∧ AddModule w1 p m2 = .ret none w2 ∧
      GetModule w2 p = .ret (m2, none) w2 := by
  refine ⟨_, _, AddModule_eq w p m1 hfree, AddModule_eq _ p m2 rfl, ?_⟩
  exact GetModule_hit _ p m2 rfl (AList.lookup_insert _)

theorem AddModule_last_write_wins_witness :
    (World.mk (σ := Unit) ⟨∅, .unlocked⟩ (fun _ => ()) []).Modules.mutex = .unlocked ∧
    ∃ w1 w2,
      AddModule (World.mk (σ := Unit) ⟨∅, .unlocked⟩ (fun _ => ()) []) "scan" (.obj 1)
        = .ret none w1 ∧
      AddModule w1 "scan" (.obj 2) = .ret none w2 ∧
      GetModule w2 "scan" = .ret (Module.obj 2, none) w2 :=
  ⟨rfl, AddModule_last_write_wins _ "scan" (.obj 1) (.obj 2) rfl⟩

/-- C2: for every catalog state (its mutex free, as between calls) and every
path p, GetModule(p) returns; its error is non-nil exactly when the catalog has
no entry for p, and then the module returned is nil; otherwise it returns the
registered entry with a nil error; in both cases the whole state, the catalog
included, is left as it was. -/
theorem GetModule_error_iff_absent {σ : Type} (w : World σ) (p : String)
    (hfree : w.Modules.mutex = .unlocked) :
    ∃ mod err, GetModule w p = .ret (mod, err) w ∧
      (err ≠ none ↔ w.Modules.Loaded.lookup p = none) ∧
      (err ≠ none → mod = Module.nil) ∧
      (err = none → w.Modules.Loaded.lookup p = some mod) := by
  cases h : w.Modules.Loaded.lookup p with
  | none =>
    exact ⟨Module.nil, some "No module for given path", GetModule_miss w p hfree h,
      by simp, fun _ => rfl, by simp⟩
  | some m =>
    exact ⟨m, none, GetModule_hit w p m hfree h, by simp, by simp, fun _ => rfl⟩

theorem GetModule_error_iff_absent_witness :
    (World.mk (σ := Unit) ⟨(∅ : GoMap String Module).insert "scan" (.obj 1), .unlocked⟩
        (fun _ => ()) []).Modules.mutex = .unlocked ∧
    ∃ mod err,
      GetModule (World.mk (σ := Unit)
          ⟨(∅ : GoMap String Module).insert "scan" (.obj 1), .unlocked⟩ (fun _ => ()) [])
          "post" =
        .ret (mod, err) (World.mk (σ := Unit)
          ⟨(∅ : GoMap String Module).insert "scan" (.obj 1), .unlocked⟩ (fun _ => ()) []) ∧
      (err ≠ none ↔
        ((∅ : GoMap String Module).insert "scan" (.obj 1)).lookup "post" = none) ∧
      (err ≠ none → mod = Module.nil) ∧
      (err = none →
        ((∅ : GoMap String Module).insert "scan" (.obj 1)).lookup "post" = some mod) :=
  ⟨rfl, GetModule_error_iff_absent _ "post" rfl⟩

/-! ## Stacks -/

theorem stack_LoadModule_held {σ : Type} (impl : ModuleImpl σ) (s : stack) (w : World σ)
    (userID : Int) (p : String) (hs : s.mutex = .locked) :
    stack.LoadModule impl s w userID p = .blocked (s, w) := by
  simp only [stack.LoadModule, hs, RWMutex.Lock]

theorem stack_LoadModule_miss {σ : Type} (impl : ModuleImpl σ) (s : stack) (w : World σ)
    (userID : Int) (p : String) (hs : s.mutex = .unlocked)
    (hw : w.Modules.mutex = .unlocked) (h : w.Modules.Loaded.lookup p = none) :
    stack.LoadModule impl s w userID p = .ret (some "No module for given path") (s, w) := by
  cases s with
  | mk L mu =>
    simp only at hs
    subst hs
    simp only [stack.LoadModule, RWMutex.Lock, GetModule_miss w p hw h, RWMutex.Unlock]

theorem stack_LoadModule_obj {σ : Type} (impl : ModuleImpl σ) (s : stack) (w : World σ)
    (userID : Int) (p : String) (ref : Nat) (hs : s.mutex = .unlocked)
    (hw : w.Modules.mutex = .unlocked) (h : w.Modules.Loaded.lookup p = some (.obj ref)) :
    stack.LoadModule impl s w userID p =
      .ret none ({ Loaded := s.Loaded.insert p (.obj ref), mutex := .unlocked },
        (callInit impl w ref userID).2) := by
  simp only [stack.LoadModule, hs, RWMutex.Lock, GetModule_hit w p _ hw h, RWMutex.Unlock]

theorem stack_LoadModule_nil {σ : Type} (impl : ModuleImpl σ) (s : stack) (w : World σ)
    (userID : Int) (p : String) (hs : s.mutex = .unlocked)
    (hw : w.Modules.mutex = .unlocked) (h : w.Modules.Loaded.lookup p = some .nil) :
    stack.LoadModule impl s w userID p = .panicked (s, w) := by
  cases s with
  | mk L mu =>
    simp only at hs
    subst hs
    simp only [stack.LoadModule, RWMutex.Lock, GetModule_hit w p _ hw h, RWMutex.Unlock]

theorem stack_Module_hit {σ : Type} (impl : ModuleImpl σ) (s : stack) (w : World σ)
    (userID : Int) (p : String) (m : Module) (hs : s.mutex = .unlocked)
    (h : s.Loaded.lookup p = some m) :
    stack.Module impl s w userID p = .ret (m, none) (s, w) := by
  cases s with
  | mk L mu =>
    simp only at hs h
    subst hs
    simp only [stack.Module, RWMutex.Lock, h, RWMutex.Unlock]

/-- On a path the stack does not hold, Module calls LoadModule while it holds
the mutex of the stack; LoadModule locks the same mutex and waits for ever. -/
theorem stack_Module_miss {σ : Type} (impl : ModuleImpl σ) (s : stack) (w : World σ)
    (userID : Int) (p : String) (hs : s.mutex = .unlocked)
    (h : s.Loaded.lookup p = none) :
    stack.Module impl s w userID p = .blocked ({ s with mutex := .locked }, w) := by
  simp only [stack.Module, hs, RWMutex.Lock, h,
    stack_LoadModule_held impl { s with mutex := .locked } w userID p rfl]

theorem erase_absent {V : Type} (m : GoMap String V) (p : String) (h : m.lookup p = none) :
    m.erase p = m := by
  apply AList.ext
  have hk : p ∉ m.entries.keys := by
    have := AList.lookup_eq_none.mp h
    exact fun hc => this (AList.mem_keys.mpr hc)
  simp [AList.erase, List.kerase_of_not_mem_keys hk]

/-- C3, the code at the failing input: the catalog holds the object 0 under
`scan` and the stack holds nothing; the first call Module(7, scan) does not
return: it waits for ever on the mutex of the stack, with no Init call made
and nothing cached. -/
theorem stack_Module_first_call_never_returns :
    scanWorld.Modules.Loaded.lookup "scan" = some (Module.obj 0) ∧
    emptyStack.Loaded.lookup "scan" = none ∧
    stack.Module bindingImpl emptyStack scanWorld 7 "scan" =
      .blocked ({ Loaded := ∅, mutex := .locked }, scanWorld) ∧
    (stack.Module bindingImpl emptyStack scanWorld 7 "scan").returns = false ∧
    (stack.Module bindingImpl emptyStack scanWorld 7 "scan").state.2.calls = [] ∧
    (stack.Module bindingImpl emptyStack scanWorld 7 "scan").state.1.Loaded.lookup "scan"
      = none := by
  have h := stack_Module_miss bindingImpl emptyStack scanWorld 7 "scan" rfl rfl
  refine ⟨rfl, rfl, h, ?_, ?_, ?_⟩ <;> rw [h] <;> rfl

/-- C4, the code at the failing input: neither the catalog nor the stack holds
`scan`; Module(7, scan) returns nothing at all, hence no error: it waits for
ever on the mutex of the stack, while LoadModule called on its own reports the
missing entry. -/
theorem stack_Module_unregistered_never_returns :
    emptyWorld.Modules.Loaded.lookup "scan" = none ∧
    emptyStack.Loaded.lookup "scan" = none ∧
    (stack.Module bindingImpl emptyStack emptyWorld 7 "scan").blocks = true ∧
    (stack.Module bindingImpl emptyStack emptyWorld 7 "scan").result = none ∧
    (stack.LoadModule bindingImpl emptyStack emptyWorld 7 "scan").result
      = some (some "No module for given path") := by
  have h := stack_Module_miss bindingImpl emptyStack emptyWorld 7 "scan" rfl rfl
  have h2 := stack_LoadModule_miss bindingImpl emptyStack emptyWorld 7 "scan" rfl rfl rfl
  refine ⟨rfl, rfl, ?_, ?_, ?_⟩
  · rw [h]; rfl
  · rw [h]; rfl
  · rw [h2]; rfl

/-- C5, the code at the failing input: the catalog holds the object 0 under
`scan` and Init fails on it; LoadModule(7, scan) calls Init, returns a nil
error all the same and caches the object in the stack. -/
theorem stack_LoadModule_drops_Init_error :
    (callInit failingImpl scanWorld 0 7).1 = some "init failed" ∧
    (stack.LoadModule failingImpl emptyStack scanWorld 7 "scan").result = some none ∧
    (stack.LoadModule failingImpl emptyStack scanWorld 7 "scan").state.2.calls
      = [Call.Init 0 7] ∧
    (stack.LoadModule failingImpl emptyStack scanWorld 7 "scan").state.1.Loaded.lookup "scan"
      = some (Module.obj 0) := by
  have h := stack_LoadModule_obj failingImpl emptyStack scanWorld 7 "scan" 0 rfl rfl rfl
  refine ⟨rfl, ?_, ?_, ?_⟩
  · rw [h]; rfl
  · rw [h]; rfl
  · rw [h]; exact AList.lookup_insert _

/-- C9: for every stack (its mutex free, as between calls) and every path p,
PopModule(p) returns nil and leaves the stack with no entry for p, every
entry for another path as it was, and the mutex free; when p was not present
the stack is unchanged.  The rest of the state, the trace of method calls
included, is untouched: no method of the removed instance is invoked. -/
theorem stack_PopModule_frame {σ : Type} (s : stack) (w : World σ) (p : String)
    (hs : s.mutex = .unlocked) :
    ∃ s1, stack.PopModule s w p = .ret none (s1, w) ∧
      s1.mutex = .unlocked ∧
      s1.Loaded.lookup p = none ∧
      (∀ q, q ≠ p → s1.Loaded.lookup q = s.Loaded.lookup q) ∧
      (s.Loaded.lookup p = none → s1 = s) := by
  refine ⟨{ Loaded := s.Loaded.erase p, mutex := .unlocked }, ?_, rfl, ?_, ?_, ?_⟩
  · simp only [stack.PopModule, hs, RWMutex.Lock, RWMutex.Unlock]
  · exact AList.lookup_erase _ _
  · intro q hq
    exact AList.lookup_erase_ne hq
  · intro h
    cases s with
    | mk L mu =>
      simp only at hs h
      subst hs
      simp only [erase_absent L p h]

theorem stack_PopModule_frame_witness :
    otherStack.mutex = .unlocked ∧
    ∃ s1, stack.PopModule otherStack scanWorld "post" = .ret none (s1, scanWorld) ∧
      s1.mutex = .unlocked ∧
      s1.Loaded.lookup "post" = none ∧
      (∀ q, q ≠ "post" → s1.Loaded.lookup q = otherStack.Loaded.lookup q) ∧
      (otherStack.Loaded.lookup "post" = none → s1 = otherStack) :=
  ⟨rfl, stack_PopModule_frame otherStack scanWorld "post" rfl⟩

/-- C10: for every stack that holds the instance m1 for path p (the mutexes
free, as between calls) and every module m2, AddModule(p, m2) returns nil and
makes m2 the catalog entry of p; Module(userID, p) on the stack afterwards
returns m1 with a nil error, and leaves the stack, the module objects and the
trace of calls as they were: Init is called on neither m1 nor m2. -/
theorem stack_Module_no_retroactive_invalidation {σ : Type} (impl : ModuleImpl σ)
    (s : stack) (w : World σ) (userID : Int) (p : String) (m1 m2 : Module)
    (hs : s.mutex = .unlocked) (hw : w.Modules.mutex = .unlocked)
    (h : s.Loaded.lookup p = some m1) :
    ∃ w1, AddModule w p m2 = .ret none w1 ∧
      GetModule w1 p = .ret (m2, none) w1 ∧
      stack.Module impl s w1 userID p = .ret (m1, none) (s, w1) ∧
      w1.calls = w.calls ∧ w1.objs = w.objs := by
  refine ⟨_, AddModule_eq w p m2 hw, ?_, ?_, rfl, rfl⟩
  · exact GetModule_hit _ p m2 rfl (AList.lookup_insert _)
  · exact stack_Module_hit impl s _ userID p m1 hs h

theorem stack_Module_no_retroactive_invalidation_witness :
    otherStack.mutex = .unlocked ∧ emptyWorld.Modules.mutex = .unlocked ∧
    otherStack.Loaded.lookup "post" = some (Module.obj 5) ∧
    ∃ w1, AddModule emptyWorld "post" (Module.obj 6) = .ret none w1 ∧
      GetModule w1 "post" = .ret (Module.obj 6, none) w1 ∧
      stack.Module bindingImpl otherStack w1 3 "post" = .ret (Module.obj 5, none) (otherStack, w1) ∧
      w1.calls = emptyWorld.calls ∧ w1.objs = emptyWorld.objs :=
  ⟨rfl, rfl, rfl,
    stack_Module_no_retroactive_invalidation bindingImpl otherStack emptyWorld 3 "post"
      (Module.obj 5) (Module.obj 6) rfl rfl rfl⟩

/-- C6 as stated fails: two stacks load `scan`, the first for user 1 and the
second for user 2.  Module then returns the object 0 from the first stack and
the same object 0 from the second, which is the object registered in the
catalog; and the user bound to it, seen through either stack, is the one the
second stack bound. -/
theorem module_instance_shared_across_stacks :
    (stack.Module bindingImpl
        (stack.LoadModule bindingImpl emptyStack scanWorld 1 "scan").state.1
        (stack.LoadModule bindingImpl otherStack
          (stack.LoadModule bindingImpl emptyStack scanWorld 1 "scan").state.2 2 "scan").state.2
        1 "scan").result = some (Module.obj 0, none) ∧
    (stack.Module bindingImpl
        (stack.LoadModule bindingImpl otherStack
          (stack.LoadModule bindingImpl emptyStack scanWorld 1 "scan").state.2 2 "scan").state.1
        (stack.LoadModule bindingImpl otherStack
          (stack.LoadModule bindingImpl emptyStack scanWorld 1 "scan").state.2 2 "scan").state.2
        2 "scan").result = some (Module.obj 0, none) ∧
    scanWorld.Modules.Loaded.lookup "scan" = some (Module.obj 0) ∧
    (stack.LoadModule bindingImpl otherStack
        (stack.LoadModule bindingImpl emptyStack scanWorld 1 "scan").state.2 2 "scan").state.2.objs 0
      = 2 := by
  have h1 := stack_LoadModule_obj bindingImpl emptyStack scanWorld 1 "scan" 0 rfl rfl rfl
  rw [h1]
  simp only [Exec.state]
  have h2 := stack_LoadModule_obj bindingImpl otherStack
    (callInit bindingImpl scanWorld 0 1).2 2 "scan" 0 rfl rfl rfl
  rw [h2]
  simp only [Exec.state]
  refine ⟨?_, ?_, rfl, ?_⟩
  · rw [stack_Module_hit bindingImpl _ _ 1 "scan" (Module.obj 0) rfl (AList.lookup_insert _)]
    rfl
  · rw [stack_Module_hit bindingImpl _ _ 2 "scan" (Module.obj 0) rfl (AList.lookup_insert _)]
    rfl
  · simp [callInit, bindingImpl]

/-- C6 as amended: a module instance is shared across stacks.  For every two
stacks and every path p the catalog registers as the object ref (the mutexes
free, as between calls), after each stack has loaded p with LoadModule, Module
returns from the first stack and from the second the same object ref, which is
the catalog's own registered object; the state of that object is the one the
Init call of the second load left, so what one stack binds is seen through
the other. -/
theorem stack_instances_are_the_catalog_object {σ : Type} (impl : ModuleImpl σ)
    (s1 s2 : stack) (w : World σ) (u1 u2 : Int) (p : String) (ref : Nat)
    (h1 : s1.mutex = .unlocked) (h2 : s2.mutex = .unlocked)
    (hw : w.Modules.mutex = .unlocked)
    (h : w.Modules.Loaded.lookup p = some (.obj ref)) :
    ∃ t1 w1 t2 w2,
      stack.LoadModule impl s1 w u1 p = .ret none (t1, w1) ∧
      stack.LoadModule impl s2 w1 u2 p = .ret none (t2, w2) ∧
      stack.Module impl t1 w2 u1 p = .ret (Module.obj ref, none) (t1, w2) ∧
      stack.Module impl t2 w2 u2 p = .ret (Module.obj ref, none) (t2, w2) ∧
      GetModule w2 p = .ret (Module.obj ref, none) w2 ∧
      w2.objs ref = (impl.Init ref (impl.Init ref (w.objs ref) u1).1 u2).1 ∧
      w2.calls = w.calls ++ [Call.Init ref u1, Call.Init ref u2] := by
  refine ⟨_, _, _, _, stack_LoadModule_obj impl s1 w u1 p ref h1 hw h,
    stack_LoadModule_obj impl s2 _ u2 p ref h2 hw h, ?_, ?_, ?_, ?_, ?_⟩
  · exact stack_Module_hit impl _ _ u1 p _ rfl (AList.lookup_insert _)
  · exact stack_Module_hit impl _ _ u2 p _ rfl (AList.lookup_insert _)
  · exact GetModule_hit _ p _ hw h
  · simp [callInit]
  · simp [callInit]

theorem stack_instances_are_the_catalog_object_witness :
    emptyStack.mutex = .unlocked ∧ otherStack.mutex = .unlocked ∧
    scanWorld.Modules.mutex = .unlocked ∧
    scanWorld.Modules.Loaded.lookup "scan" = some (Module.obj 0) ∧
    ∃ t1 w1 t2 w2,
      stack.LoadModule bindingImpl emptyStack scanWorld 1 "scan" = .ret none (t1, w1) ∧
      stack.LoadModule bindingImpl otherStack w1 2 "scan" = .ret none (t2, w2) ∧
      stack.Module bindingImpl t1 w2 1 "scan" = .ret (Module.obj 0, none) (t1, w2) ∧
      stack.Module bindingImpl t2 w2 2 "scan" = .ret (Module.obj 0, none) (t2, w2) ∧
      GetModule w2 "scan" = .ret (Module.obj 0, none) w2 ∧
      w2.objs 0 = (bindingImpl.Init 0 (bindingImpl.Init 0 (scanWorld.objs 0) 1).1 2).1 ∧
      w2.calls = scanWorld.calls ++ [Call.Init 0 1, Call.Init 0 2] :=
  ⟨rfl, rfl, rfl, rfl,
    stack_instances_are_the_catalog_object bindingImpl emptyStack otherStack scanWorld 1 2
      "scan" 0 rfl rfl rfl rfl⟩


/-! ## The registry of stacks -/

theorem certs_names (cs : List Certificate) (acc : List String) :
    cs.foldl (fun users c => users ++ [c.CommonName]) acc
      = acc ++ cs.map (fun c => c.CommonName) := by
  induction cs generalizing acc with
  | nil => simp
  | cons c cs ih => simp [ih]

theorem unique_loop_inv (xs : List String) (keys : GoMap String Bool) (list : List String)
    (hk : ∀ x, x ∈ keys ↔ x ∈ list) (hn : list.Nodup) :
    (∀ x, x ∈ (xs.foldl
        (fun (acc : GoMap String Bool × List String) entry =>
          match acc.1.lookup entry with
          | some _ => acc
          | none => (acc.1.insert entry true, acc.2 ++ [entry]))
        (keys, list)).2 ↔ x ∈ list ∨ x ∈ xs) ∧
    (xs.foldl
        (fun (acc : GoMap String Bool × List String) entry =>
          match acc.1.lookup entry with
          | some _ => acc
          | none => (acc.1.insert entry true, acc.2 ++ [entry]))
        (keys, list)).2.Nodup := by
  induction xs generalizing keys list with
  | nil => simp [hn]
  | cons e xs ih =>
    simp only [List.foldl_cons]
    cases h : keys.lookup e with
    | some b =>
      have he : e ∈ list := (hk e).mp (AList.lookup_isSome.mp (by simp [h]))
      obtain ⟨h1, h2⟩ := ih keys list hk hn
      refine ⟨fun x => ?_, h2⟩
      rw [h1 x]
      constructor
      · rintro (hx | hx)
        · exact Or.inl hx
        · exact Or.inr (List.mem_cons_of_mem _ hx)
      · rintro (hx | hx)
        · exact Or.inl hx
        · rcases List.mem_cons.mp hx with rfl | hx
          · exact Or.inl he
          · exact Or.inr hx
    | none =>
      have he : e ∉ list := fun hc => AList.lookup_eq_none.mp h ((hk e).mpr hc)
      have hk2 : ∀ x, x ∈ keys.insert e true ↔ x ∈ list ++ [e] := by
        intro x
        rw [AList.mem_insert, hk x]
        simp [or_comm]
      have hn2 : (list ++ [e]).Nodup := by
        rw [List.nodup_append]
        refine ⟨hn, List.nodup_singleton e, ?_⟩
        intro a ha hb
        rw [List.mem_singleton] at hb
        exact he (hb ▸ ha)
      obtain ⟨h1, h2⟩ := ih (keys.insert e true) (list ++ [e]) hk2 hn2
      refine ⟨fun x => ?_, h2⟩
      rw [h1 x]
      simp only [List.mem_append, List.mem_singleton, List.mem_cons]
      tauto

theorem mem_unique (xs : List String) (x : String) : x ∈ unique xs ↔ x ∈ xs := by
  have h := (unique_loop_inv xs ∅ [] (by simp) List.nodup_nil).1 x
  simpa [unique] using h

theorem unique_nodup (xs : List String) : (unique xs).Nodup :=
  (unique_loop_inv xs ∅ [] (by simp) List.nodup_nil).2

theorem insert_fold_lookup (users : List String) (m0 : GoMap String stack) (st : stack)
    (u : String) :
    (users.foldl (fun m user => m.insert user st) m0).lookup u
      = if u ∈ users then some st else m0.lookup u := by
  induction users generalizing m0 with
  | nil => simp
  | cons x xs ih =>
    simp only [List.foldl_cons, ih, List.mem_cons]
    by_cases hx : u ∈ xs
    · simp [hx]
    · by_cases hux : u = x
      · subst hux
        simp [hx, AList.lookup_insert]
      · simp [hx, hux, AList.lookup_insert_ne hux]

theorem freshStacks_lookup (users : List String) (u : String) :
    (freshStacks users).lookup u
      = if u ∈ users then some { Loaded := ∅, mutex := RWMutex.unlocked } else none := by
  simp [freshStacks, insert_fold_lookup]

theorem freshStacks_mem_keys (users : List String) (u : String) :
    u ∈ (freshStacks users).keys ↔ u ∈ users := by
  rw [← AList.mem_keys, ← AList.lookup_isSome, freshStacks_lookup]
  by_cases h : u ∈ users <;> simp [h]

theorem freshStacks_keys_length (users : List String) :
    (freshStacks users).keys.length = users.toFinset.card := by
  rw [← List.toFinset_card_of_nodup (AList.keys_nodup _)]
  congr 1
  ext u
  simp [freshStacks_mem_keys]

theorem store_fold (users : List String) (st : stack) (r : Registry) (a : Nat)
    (m0 : GoMap String stack) (h : r.maps[a]? = some m0) :
    users.foldl (fun r2 user => r2.store a user st) r
      = { Stacks := r.Stacks,
          maps := r.maps.set a (users.foldl (fun m user => m.insert user st) m0) } := by
  induction users generalizing r m0 with
  | nil =>
    cases r with
    | mk S M =>
      simp only [List.foldl_nil, Registry.mk.injEq, true_and]
      simp only at h
      apply List.ext_getElem?
      intro i
      rw [List.getElem?_set]
      split
      · next hi =>
        subst hi
        split
        · exact h
        · next hlt => simp [List.getElem?_eq_none (Nat.le_of_not_lt hlt)]
      · rfl
  | cons x xs ih =>
    have ha : a < r.maps.length := by
      by_contra hc
      rw [List.getElem?_eq_none (Nat.le_of_not_lt hc)] at h
      exact Option.noConfusion h
    have h1 : (r.store a x st).maps[a]? = some (m0.insert x st) := by
      simp [Registry.store, h, List.getElem?_set_self ha]
    rw [List.foldl_cons, ih (r.store a x st) (m0.insert x st) h1]
    simp [Registry.store, List.set_set]

theorem workspace_eq (users : List String) (r : Registry) (w : Workspace) :
    LoadStacks.workspace users r w
      = { Stacks := r.Stacks.insert w.ID r.maps.length,
          maps := r.maps ++ [freshStacks users] } := by
  unfold LoadStacks.workspace
  simp only
  rw [store_fold users _ _ r.maps.length ∅ (by simp)]
  simp [freshStacks]

theorem fold_maps (users : List String) (ws : List Workspace) (r : Registry) :
    (ws.foldl (LoadStacks.workspace users) r).maps
      = r.maps ++ List.replicate ws.length (freshStacks users) := by
  induction ws generalizing r with
  | nil => simp
  | cons w ws ih =>
    rw [List.foldl_cons, ih, workspace_eq]
    simp [List.replicate_succ]

theorem fold_lookup_not_mem (users : List String) (ws : List Workspace) (r : Registry)
    (k : Nat) (hk : k ∉ ws.map (fun w => w.ID)) :
    (ws.foldl (LoadStacks.workspace users) r).Stacks.lookup k = r.Stacks.lookup k := by
  induction ws generalizing r with
  | nil => simp
  | cons w ws ih =>
    simp only [List.map_cons, List.mem_cons, not_or] at hk
    rw [List.foldl_cons, ih _ hk.2, workspace_eq]
    exact AList.lookup_insert_ne hk.1

theorem fold_lookup_mem (users : List String) (ws : List Workspace) (r : Registry)
    (k : Nat) (hk : k ∈ ws.map (fun w => w.ID)) :
    ∃ a, (ws.foldl (LoadStacks.workspace users) r).Stacks.lookup k = some a ∧
      r.maps.length ≤ a ∧ a < r.maps.length + ws.length := by
  induction ws generalizing r with
  | nil => simp at hk
  | cons w ws ih =>
    rw [List.foldl_cons]
    by_cases hin : k ∈ ws.map (fun w => w.ID)
    · obtain ⟨a, h1, h2, h3⟩ := ih (LoadStacks.workspace users r w) hin
      refine ⟨a, h1, ?_, ?_⟩
      · rw [workspace_eq] at h2
        simp at h2
        omega
      · rw [workspace_eq] at h3
        simp at h3 ⊢
        omega
    · have hkw : k = w.ID := by
        simp only [List.map_cons, List.mem_cons] at hk
        rcases hk with h | h
        · exact h
        · exact absurd h hin
      refine ⟨r.maps.length, ?_, le_refl _, by simp⟩
      rw [fold_lookup_not_mem users ws _ k hin, workspace_eq, hkw]
      exact AList.lookup_insert _

theorem fold_mem_Stacks (users : List String) (ws : List Workspace) (r : Registry)
    (k : Nat) :
    k ∈ (ws.foldl (LoadStacks.workspace users) r).Stacks
      ↔ k ∈ r.Stacks ∨ k ∈ ws.map (fun w => w.ID) := by
  by_cases hin : k ∈ ws.map (fun w => w.ID)
  · obtain ⟨a, h1, _, _⟩ := fold_lookup_mem users ws r k hin
    have : k ∈ (ws.foldl (LoadStacks.workspace users) r).Stacks :=
      AList.lookup_isSome.mp (by simp [h1])
    simp [this, hin]
  · rw [← AList.lookup_isSome, fold_lookup_not_mem users ws r k hin, AList.lookup_isSome]
    simp [hin]

/-- After the outer loop, a fetched workspace ID names a fresh inner map. -/
theorem fold_fresh (users : List String) (ws : List Workspace) (r : Registry)
    (k : Nat) (hk : k ∈ ws.map (fun w => w.ID)) :
    ∃ a, (ws.foldl (LoadStacks.workspace users) r).Stacks.lookup k = some a ∧
      (ws.foldl (LoadStacks.workspace users) r).maps[a]? = some (freshStacks users) := by
  obtain ⟨a, h1, h2, h3⟩ := fold_lookup_mem users ws r k hk
  refine ⟨a, h1, ?_⟩
  rw [fold_maps, List.getElem?_append_right h2, List.getElem?_replicate]
  have : a - r.maps.length < ws.length := by omega
  simp [this]

/-- After the outer loop, the inner maps that existed before are as they were. -/
theorem fold_old (users : List String) (ws : List Workspace) (r : Registry)
    (a : Nat) (ha : a < r.maps.length) :
    (ws.foldl (LoadStacks.workspace users) r).maps[a]? = r.maps[a]? := by
  rw [fold_maps, List.getElem?_append_left ha]

theorem wellFormed_lookup (r : Registry) (h : r.wellFormed) (k a : Nat)
    (hk : r.Stacks.lookup k = some a) : a < r.maps.length :=
  h ⟨k, a⟩ (AList.mem_lookup_iff.mp hk)

theorem mem_usersOf (r : Registry) (k : Nat) (u : String) :
    u ∈ r.usersOf k ↔ (r.find k u).isSome = true := by
  cases h1 : r.Stacks.lookup k with
  | none => simp [Registry.usersOf, Registry.find, h1]
  | some a =>
    cases h2 : r.maps[a]? with
    | none => simp [Registry.usersOf, Registry.find, h1, h2]
    | some m =>
      simp [Registry.usersOf, Registry.find, h1, h2, ← AList.mem_keys, ← AList.lookup_isSome]

theorem usersOf_nodup (r : Registry) (k : Nat) : (r.usersOf k).Nodup := by
  cases h1 : r.Stacks.lookup k with
  | none => simp [Registry.usersOf, h1]
  | some a =>
    cases h2 : r.maps[a]? with
    | none => simp [Registry.usersOf, h1, h2]
    | some m =>
      simp only [Registry.usersOf, h1, h2]
      exact AList.keys_nodup m

theorem pairs_nodup (r : Registry) (ids : List Nat) : (r.pairs ids).Nodup := by
  unfold Registry.pairs
  rw [List.nodup_flatten]
  constructor
  · intro l hl
    obtain ⟨k, _, rfl⟩ := List.mem_map.mp hl
    exact (usersOf_nodup r k).map (fun a b h => (Prod.mk.inj h).2)
  · rw [List.pairwise_map]
    refine (List.nodup_dedup ids).imp ?_
    intro a b hab x hxa hxb
    obtain ⟨_, _, rfl⟩ := List.mem_map.mp hxa
    obtain ⟨_, _, h⟩ := List.mem_map.mp hxb
    exact hab (Prod.mk.inj h).1.symm

theorem mem_pairs (r : Registry) (ids : List Nat) (k : Nat) (u : String) :
    (k, u) ∈ r.pairs ids ↔ k ∈ ids ∧ u ∈ r.usersOf k := by
  unfold Registry.pairs
  simp only [List.mem_flatten, List.mem_map, List.mem_dedup]
  constructor
  · rintro ⟨l, ⟨k2, hk2, rfl⟩, hm⟩
    obtain ⟨u2, hu2, h⟩ := List.mem_map.mp hm
    obtain ⟨rfl, rfl⟩ := Prod.mk.inj h
    exact ⟨hk2, hu2⟩
  · rintro ⟨hk, hu⟩
    exact ⟨_, ⟨k, hk, rfl⟩, List.mem_map.mpr ⟨u, hu, rfl⟩⟩

theorem LoadStacks_snd (clientCerts : List Certificate) (workspaces : List Workspace)
    (r : Registry) :
    (LoadStacks clientCerts workspaces r).2
      = workspaces.foldl
          (LoadStacks.workspace (unique (clientCerts.map (fun c => c.CommonName)))) r := by
  simp [LoadStacks, certs_names]

theorem LoadStacks_find_fetched (clientCerts : List Certificate)
    (workspaces : List Workspace) (r : Registry) (k : Nat)
    (hk : k ∈ workspaces.map (fun w => w.ID)) (u : String) :
    (LoadStacks clientCerts workspaces r).2.find k u
      = if u ∈ clientCerts.map (fun c => c.CommonName)
        then some { Loaded := ∅, mutex := RWMutex.unlocked } else none := by
  rw [LoadStacks_snd]
  obtain ⟨a, h1, h2⟩ := fold_fresh (unique (clientCerts.map (fun c => c.CommonName)))
    workspaces r k hk
  simp only [Registry.find, h1, h2, freshStacks_lookup, mem_unique]

theorem LoadStacks_usersOf_fetched (clientCerts : List Certificate)
    (workspaces : List Workspace) (r : Registry) (k : Nat)
    (hk : k ∈ workspaces.map (fun w => w.ID)) :
    (LoadStacks clientCerts workspaces r).2.usersOf k
      = (freshStacks (unique (clientCerts.map (fun c => c.CommonName)))).keys := by
  rw [LoadStacks_snd]
  obtain ⟨a, h1, h2⟩ := fold_fresh (unique (clientCerts.map (fun c => c.CommonName)))
    workspaces r k hk
  simp only [Registry.usersOf, h1, h2]

theorem unique_toFinset (xs : List String) : (unique xs).toFinset = xs.toFinset := by
  ext u
  simp [mem_unique]

theorem LoadStacks_pairs_length (clientCerts : List Certificate)
    (workspaces : List Workspace) (r : Registry) :
    ((LoadStacks clientCerts workspaces r).2.pairs (workspaces.map (fun w => w.ID))).length
      = (clientCerts.map (fun c => c.CommonName)).toFinset.card
        * (workspaces.map (fun w => w.ID)).toFinset.card := by
  unfold Registry.pairs
  rw [List.length_flatten, List.map_map]
  have hc : ∀ k ∈ (workspaces.map (fun w => w.ID)).dedup,
      (List.length ∘ fun k =>
        ((LoadStacks clientCerts workspaces r).2.usersOf k).map (fun u => (k, u))) k
        = (clientCerts.map (fun c => c.CommonName)).toFinset.card := by
    intro k hk
    simp only [Function.comp, List.length_map]
    rw [LoadStacks_usersOf_fetched clientCerts workspaces r k (List.mem_dedup.mp hk),
      freshStacks_keys_length, unique_toFinset]
  rw [List.map_congr_left hc, List.map_const', List.sum_const_nat]
  simp only [List.card_toFinset]
  exact Nat.mul_comm _ _

/-- C7: for every prior registry content, every certificate list and every
workspace list, LoadStacks returns nil and afterwards `Stacks[w.ID][user]`
holds, for each fetched workspace w and each common name user of a
certificate, a stack whose Loaded map is empty (and whose mutex is free).  The
(workspace ID, user) pairs stored under the fetched workspace IDs are exactly
those of the cross-product, each listed once, and their number is U×W, with U
the number of distinct common names and W the number of distinct workspace
IDs. -/
theorem LoadStacks_cross_product (clientCerts : List Certificate)
    (workspaces : List Workspace) (r : Registry) :
    (LoadStacks clientCerts workspaces r).1 = none ∧
    (∀ w ∈ workspaces, ∀ c ∈ clientCerts,
      (LoadStacks clientCerts workspaces r).2.find w.ID c.CommonName
        = some { Loaded := ∅, mutex := RWMutex.unlocked }) ∧
    (∀ k u,
      (k, u) ∈ (LoadStacks clientCerts workspaces r).2.pairs (workspaces.map (fun w => w.ID))
        ↔ k ∈ workspaces.map (fun w => w.ID) ∧ u ∈ clientCerts.map (fun c => c.CommonName)) ∧
    ((LoadStacks clientCerts workspaces r).2.pairs (workspaces.map (fun w => w.ID))).Nodup ∧
    ((LoadStacks clientCerts workspaces r).2.pairs (workspaces.map (fun w => w.ID))).length
      = (clientCerts.map (fun c => c.CommonName)).toFinset.card
        * (workspaces.map (fun w => w.ID)).toFinset.card := by
  refine ⟨rfl, ?_, ?_, pairs_nodup _ _, LoadStacks_pairs_length clientCerts workspaces r⟩
  · intro w hw c hc
    rw [LoadStacks_find_fetched clientCerts workspaces r w.ID
      (List.mem_map.mpr ⟨w, hw, rfl⟩)]
    simp only [List.mem_map]
    rw [if_pos ⟨c, hc, rfl⟩]
  · intro k u
    rw [mem_pairs]
    constructor
    · rintro ⟨hk, hu⟩
      rw [LoadStacks_usersOf_fetched clientCerts workspaces r k hk, freshStacks_mem_keys,
        mem_unique] at hu
      exact ⟨hk, hu⟩
    · rintro ⟨hk, hu⟩
      rw [LoadStacks_usersOf_fetched clientCerts workspaces r k hk, freshStacks_mem_keys,
        mem_unique]
      exact ⟨hk, hu⟩

/-- C8 as stated fails: the registry holds, under workspace 7, a stack of
alice with `scan` loaded; LoadStacks runs with the single user bob and the
single workspace 1.  Workspace 7 is not among the fetched ones, and yet it is
still present in Stacks afterwards, with the stack of alice as it was. -/
theorem LoadStacks_keeps_unfetched_workspace :
    7 ∉ [Workspace.mk 1].map (fun w => w.ID) ∧
    7 ∈ (LoadStacks [Certificate.mk "bob"] [Workspace.mk 1] usedRegistry).2.Stacks ∧
    (LoadStacks [Certificate.mk "bob"] [Workspace.mk 1] usedRegistry).2.find 7 "alice"
      = some { Loaded := (∅ : GoMap String Module).insert "scan" (Module.obj 0),
               mutex := RWMutex.unlocked } := by
  refine ⟨by decide, ?_, ?_⟩
  · rw [LoadStacks_snd, fold_mem_Stacks]
    exact Or.inl (by decide)
  · rw [LoadStacks_snd]
    simp only [Registry.find]
    rw [fold_lookup_not_mem _ _ _ 7 (by decide)]
    have h7 : usedRegistry.Stacks.lookup 7 = some 0 := by decide
    rw [h7]
    simp only
    rw [fold_old _ _ _ 0 (by decide)]
    rfl

/-- C8 as amended: LoadStacks overwrites the registry under the fetched
workspace IDs and keeps the rest.  For every prior registry content (its inner
map references allocated) and every fetched user and workspace lists, after
LoadStacks the workspace IDs present in Stacks are the prior ones together
with the fetched ones; under a fetched ID there is one empty stack for each
fetched user and nothing else, whatever was stored there before; every stack
stored under a workspace ID that is not in the fetched list is kept as it
was. -/
theorem LoadStacks_overwrites_fetched_only (clientCerts : List Certificate)
    (workspaces : List Workspace) (r : Registry) (hwf : r.wellFormed) :
    (∀ k, k ∈ (LoadStacks clientCerts workspaces r).2.Stacks
        ↔ k ∈ r.Stacks ∨ k ∈ workspaces.map (fun w => w.ID)) ∧
    (∀ k, k ∈ workspaces.map (fun w => w.ID) → ∀ u,
      (LoadStacks clientCerts workspaces r).2.find k u
        = if u ∈ clientCerts.map (fun c => c.CommonName)
          then some { Loaded := ∅, mutex := RWMutex.unlocked } else none) ∧
    (∀ k, k ∉ workspaces.map (fun w => w.ID) → ∀ u,
      (LoadStacks clientCerts workspaces r).2.find k u = r.find k u) := by
  refine ⟨?_, ?_, ?_⟩
  · intro k
    rw [LoadStacks_snd]
    exact fold_mem_Stacks _ workspaces r k
  · intro k hk u
    exact LoadStacks_find_fetched clientCerts workspaces r k hk u
  · intro k hk u
    rw [LoadStacks_snd]
    simp only [Registry.find]
    rw [fold_lookup_not_mem _ _ _ k hk]
    cases h : r.Stacks.lookup k with
    | none => rfl
    | some a =>
      simp only
      rw [fold_old _ _ _ a (wellFormed_lookup r hwf k a h)]

theorem LoadStacks_overwrites_fetched_only_witness :
    usedRegistry.wellFormed ∧
    (∀ k, k ∈ (LoadStacks [Certificate.mk "bob"] [Workspace.mk 1] usedRegistry).2.Stacks
        ↔ k ∈ usedRegistry.Stacks ∨ k ∈ [Workspace.mk 1].map (fun w => w.ID)) ∧
    (∀ k, k ∈ [Workspace.mk 1].map (fun w => w.ID) → ∀ u,
      (LoadStacks [Certificate.mk "bob"] [Workspace.mk 1] usedRegistry).2.find k u
        = if u ∈ [Certificate.mk "bob"].map (fun c => c.CommonName)
          then some { Loaded := ∅, mutex := RWMutex.unlocked } else none) ∧
    (∀ k, k ∉ [Workspace.mk 1].map (fun w => w.ID) → ∀ u,
      (LoadStacks [Certificate.mk "bob"] [Workspace.mk 1] usedRegistry).2.find k u
        = usedRegistry.find k u) :=
  ⟨by decide,
    LoadStacks_overwrites_fetched_only [Certificate.mk "bob"] [Workspace.mk 1] usedRegistry
      (by decide)⟩

/-! ## Catalog entries are never removed -/

theorem GetModule_catalog {σ : Type} (w : World σ) (p : String) :
    (GetModule w p).state.Modules.Loaded = w.Modules.Loaded := by
  unfold GetModule
  cases hm : w.Modules.mutex <;> simp only [RWMutex.Lock, World.setMutex]
  · cases hl : w.Modules.Loaded.lookup p <;> simp [Exec.state]
  · simp [Exec.state]

theorem AddModule_catalog {σ : Type} (w : World σ) (p q : String) (m : Module)
    (h : q ∈ w.Modules.Loaded) : q ∈ (AddModule w p m).state.Modules.Loaded := by
  unfold AddModule
  cases hm : w.Modules.mutex <;> simp only [RWMutex.Lock, World.setMutex, Exec.state]
  · exact (AList.mem_insert _).mpr (Or.inr h)
  · exact h

theorem LoadModule_catalog {σ : Type} (impl : ModuleImpl σ) (s : stack) (w : World σ)
    (u : Int) (p : String) :
    (stack.LoadModule impl s w u p).state.2.Modules.Loaded = w.Modules.Loaded := by
  have hg := GetModule_catalog w p
  unfold stack.LoadModule
  cases hm : s.mutex <;> simp only [RWMutex.Lock]
  · cases hG : GetModule w p with
    | blocked w1 => rw [hG] at hg; simpa [Exec.state] using hg
    | panicked w1 => rw [hG] at hg; simpa [Exec.state] using hg
    | ret r w1 =>
      rw [hG] at hg
      obtain ⟨mod, err⟩ := r
      cases err with
      | some e => simpa [Exec.state] using hg
      | none =>
        cases mod with
        | nil => simpa [Exec.state] using hg
        | obj ref => simpa [Exec.state, callInit] using hg
  · simp [Exec.state]

theorem PopModule_catalog {σ : Type} (s : stack) (w : World σ) (p : String) :
    (stack.PopModule s w p).state.2 = w := by
  unfold stack.PopModule
  cases hm : s.mutex <;> simp [RWMutex.Lock, Exec.state]

theorem Module_catalog {σ : Type} (impl : ModuleImpl σ) (s : stack) (w : World σ)
    (u : Int) (p : String) :
    (stack.Module impl s w u p).state.2.Modules.Loaded = w.Modules.Loaded := by
  unfold stack.Module
  cases hm : s.mutex <;> simp only [RWMutex.Lock]
  · cases hl : s.Loaded.lookup p with
    | some m => simp [Exec.state]
    | none =>
      simp only
      have hL := LoadModule_catalog impl { s with mutex := RWMutex.locked } w u p
      cases hE : stack.LoadModule impl { s with mutex := RWMutex.locked } w u p with
      | blocked st => rw [hE] at hL; simpa [Exec.state] using hL
      | panicked st => rw [hE] at hL; simpa [Exec.state] using hL
      | ret r st => rw [hE] at hL; simpa [Exec.state] using hL
  · simp [Exec.state]

theorem Op_run_catalog {σ : Type} (impl : ModuleImpl σ) (op : Op) (pk : Package σ)
    (p : String) (h : p ∈ pk.world.Modules.Loaded) :
    p ∈ (op.run impl pk).world.Modules.Loaded := by
  cases op with
  | GetModule path => simpa [Op.run, GetModule_catalog] using h
  | AddModule path mod => exact AddModule_catalog pk.world path p mod h
  | LoadModule userID path => simpa [Op.run, LoadModule_catalog] using h
  | PopModule path => simpa [Op.run, PopModule_catalog] using h
  | Module userID path => simpa [Op.run, Module_catalog] using h
  | LoadStacks clientCerts workspaces => exact h

/-- C11: a registered path is never removed from the catalog.  For every
operation of the module subsystem (GetModule, AddModule, LoadModule,
PopModule, Module on a stack, LoadStacks), every input and every state, a path
that has a catalog entry before the operation has one in the state the
operation reaches, whether it returns or not; hence also after every sequence
of operations. -/
theorem catalog_entry_never_removed {σ : Type} (impl : ModuleImpl σ) (pk : Package σ)
    (p : String) (h : p ∈ pk.world.Modules.Loaded) :
    (∀ op : Op, p ∈ (op.run impl pk).world.Modules.Loaded) ∧
    (∀ ops : List Op,
      p ∈ (ops.foldl (fun st op => op.run impl st) pk).world.Modules.Loaded) := by
  refine ⟨fun op => Op_run_catalog impl op pk p h, fun ops => ?_⟩
  induction ops generalizing pk with
  | nil => exact h
  | cons op ops ih => exact ih (op.run impl pk) (Op_run_catalog impl op pk p h)

theorem catalog_entry_never_removed_witness :
    "scan" ∈ (Package.mk scanWorld emptyStack usedRegistry).world.Modules.Loaded ∧
    (∀ op : Op,
      "scan" ∈ (op.run bindingImpl
        (Package.mk scanWorld emptyStack usedRegistry)).world.Modules.Loaded) ∧
    (∀ ops : List Op,
      "scan" ∈ (ops.foldl (fun st op => op.run bindingImpl st)
        (Package.mk scanWorld emptyStack usedRegistry)).world.Modules.Loaded) :=
  ⟨by decide,
    catalog_entry_never_removed bindingImpl (Package.mk scanWorld emptyStack usedRegistry)
      "scan" (by decide)⟩
/-! ## Completion and re-loading -/

/-- C15, the code at the failing input: the stack holds `post` only, its mutex
is free, and `scan` is registered in the catalog.  Module(3, scan) locks the
mutex of the stack and calls LoadModule, which finds that mutex held and waits
for ever on it: the call does not return. -/
theorem stack_Module_relocks_its_own_mutex :
    otherStack.mutex = RWMutex.unlocked ∧
    otherStack.Loaded.lookup "scan" = none ∧
    stack.LoadModule bindingImpl { otherStack with mutex := RWMutex.locked } scanWorld 3 "scan"
      = .blocked ({ otherStack with mutex := RWMutex.locked }, scanWorld) ∧
    stack.Module bindingImpl otherStack scanWorld 3 "scan"
      = .blocked ({ otherStack with mutex := RWMutex.locked }, scanWorld) ∧
    (stack.Module bindingImpl otherStack scanWorld 3 "scan").returns = false := by
  have h := stack_Module_miss bindingImpl otherStack scanWorld 3 "scan" rfl (by decide)
  refine ⟨rfl, by decide, stack_LoadModule_held _ _ _ _ _ rfl, h, ?_⟩
  rw [h]
  rfl

/-- C16 as stated fails: the stack holds the object 5 for `post`, and `post`
has since been registered again as the object 6.  LoadModule(3, post) calls
Init on the object 6 and leaves the object 6, not the object 5, as the entry of
the stack for `post`. -/
theorem stack_LoadModule_replaces_held_instance :
    otherStack.Loaded.lookup "post" = some (Module.obj 5) ∧
    (stack.LoadModule bindingImpl otherStack postWorld 3 "post").result = some none ∧
    (stack.LoadModule bindingImpl otherStack postWorld 3 "post").state.1.Loaded.lookup "post"
      = some (Module.obj 6) ∧
    (stack.LoadModule bindingImpl otherStack postWorld 3 "post").state.2.calls
      = [Call.Init 6 3] := by
  have h := stack_LoadModule_obj bindingImpl otherStack postWorld 3 "post" 6 rfl rfl rfl
  refine ⟨rfl, ?_, ?_, ?_⟩
  · rw [h]; rfl
  · rw [h]; exact AList.lookup_insert _
  · rw [h]; rfl

/-- C16 as amended: LoadModule does not look at what the stack holds.  For
every stack that holds an instance m for path p (the mutexes free, as between
calls): when the catalog registers an object for p, be it m itself or, after a
re-registration, another one, and the Init call on that object succeeds,
LoadModule(userID, p) returns nil, having called Init on that object once
more, and leaves it as the entry of the stack for p, the other entries being
as they were; when the catalog has no entry for p, LoadModule returns the
error, calls no Init and leaves the stack, with m under p, as it was.  What
LoadModule does when Init fails is left out. -/
theorem stack_LoadModule_reloads_from_catalog {σ : Type} (impl : ModuleImpl σ)
    (s : stack) (w : World σ) (userID : Int) (p : String) (m : Module)
    (hs : s.mutex = .unlocked) (hw : w.Modules.mutex = .unlocked)
    (h : s.Loaded.lookup p = some m) :
    (∀ ref, w.Modules.Loaded.lookup p = some (Module.obj ref) →
      (impl.Init ref (w.objs ref) userID).2 = none →
      ∃ s1 w1, stack.LoadModule impl s w userID p = .ret none (s1, w1) ∧
        s1.Loaded.lookup p = some (Module.obj ref) ∧
        (∀ q, q ≠ p → s1.Loaded.lookup q = s.Loaded.lookup q) ∧
        w1.calls = w.calls ++ [Call.Init ref userID] ∧
        w1.objs ref = (impl.Init ref (w.objs ref) userID).1) ∧
    (w.Modules.Loaded.lookup p = none →
      stack.LoadModule impl s w userID p = .ret (some "No module for given path") (s, w) ∧
      s.Loaded.lookup p = some m) := by
  constructor
  · intro ref hc _
    refine ⟨_, _, stack_LoadModule_obj impl s w userID p ref hs hw hc, ?_, ?_, ?_, ?_⟩
    · exact AList.lookup_insert _
    · intro q hq
      exact AList.lookup_insert_ne hq
    · simp [callInit]
    · simp [callInit]
  · intro hc
    exact ⟨stack_LoadModule_miss impl s w userID p hs hw hc, h⟩

theorem stack_LoadModule_reloads_from_catalog_witness :
    otherStack.mutex = .unlocked ∧ postWorld.Modules.mutex = .unlocked ∧
    otherStack.Loaded.lookup "post" = some (Module.obj 5) ∧
    postWorld.Modules.Loaded.lookup "post" = some (Module.obj 6) ∧
    (bindingImpl.Init 6 (postWorld.objs 6) 3).2 = none ∧
    ∃ s1 w1, stack.LoadModule bindingImpl otherStack postWorld 3 "post" = .ret none (s1, w1) ∧
      s1.Loaded.lookup "post" = some (Module.obj 6) ∧
      (∀ q, q ≠ "post" → s1.Loaded.lookup q = otherStack.Loaded.lookup q) ∧
      w1.calls = postWorld.calls ++ [Call.Init 6 3] ∧
      w1.objs 6 = (bindingImpl.Init 6 (postWorld.objs 6) 3).1 :=
  ⟨rfl, rfl, rfl, rfl, rfl,
    (stack_LoadModule_reloads_from_catalog bindingImpl otherStack postWorld 3 "post"
      (Module.obj 5) rfl rfl rfl).1 6 rfl rfl⟩

/-! ## The function unique -/

theorem mem_firstOccurrences (xs : List String) (x : String) :
    x ∈ firstOccurrences xs ↔ x ∈ xs := by
  induction xs with
  | nil => simp [firstOccurrences]
  | cons a xs ih =>
    simp only [firstOccurrences, List.mem_cons, List.mem_filter, ih]
    by_cases hxa : x = a
    · simp [hxa]
    · simp [hxa]

theorem firstOccurrences_nodup (xs : List String) : (firstOccurrences xs).Nodup := by
  induction xs with
  | nil => simp [firstOccurrences]
  | cons a xs ih =>
    simp only [firstOccurrences, List.nodup_cons, List.mem_filter]
    exact ⟨by simp, ih.filter _⟩

theorem firstOccurrences_sublist (xs : List String) : (firstOccurrences xs).Sublist xs := by
  induction xs with
  | nil => simp [firstOccurrences]
  | cons a xs ih =>
    simp only [firstOccurrences]
    exact ((List.filter_sublist _).trans ih).cons₂ a

theorem firstOccurrences_of_nodup (xs : List String) (h : xs.Nodup) :
    firstOccurrences xs = xs := by
  induction xs with
  | nil => rfl
  | cons a xs ih =>
    rw [List.nodup_cons] at h
    simp only [firstOccurrences, ih h.2]
    congr 1
    rw [List.filter_eq_self]
    intro y hy
    simp only [ne_eq, decide_not, Bool.not_eq_eq_eq_not, Bool.not_true, decide_eq_false_iff_not]
    rintro rfl
    exact h.1 hy

theorem unique_loop_eq (xs : List String) (keys : GoMap String Bool) (list : List String)
    (hk : ∀ x, x ∈ keys ↔ x ∈ list) :
    (xs.foldl
        (fun (acc : GoMap String Bool × List String) entry =>
          match acc.1.lookup entry with
          | some _ => acc
          | none => (acc.1.insert entry true, acc.2 ++ [entry]))
        (keys, list)).2
      = list ++ (firstOccurrences xs).filter (fun y => y ∉ list) := by
  induction xs generalizing keys list with
  | nil => simp [firstOccurrences]
  | cons e xs ih =>
    simp only [List.foldl_cons]
    cases h : keys.lookup e with
    | some b =>
      have he : e ∈ list := (hk e).mp (AList.lookup_isSome.mp (by simp [h]))
      simp only
      rw [ih keys list hk]
      congr 1
      simp only [firstOccurrences, List.filter_cons, he, not_true_eq_false, decide_False,
        Bool.false_eq_true, if_false, List.filter_filter]
      apply List.filter_congr
      intro y _
      by_cases hy : y ∈ list
      · simp [hy]
      · have : y ≠ e := fun hc => hy (hc ▸ he)
        simp [hy, this]
    | none =>
      have he : e ∉ list := fun hc => AList.lookup_eq_none.mp h ((hk e).mpr hc)
      have hk2 : ∀ x, x ∈ keys.insert e true ↔ x ∈ list ++ [e] := by
        intro x
        rw [AList.mem_insert, hk x]
        simp [or_comm]
      simp only
      rw [ih (keys.insert e true) (list ++ [e]) hk2]
      simp only [firstOccurrences, List.filter_cons, he, not_false_eq_true, decide_True,
        if_true, List.filter_filter, List.append_assoc, List.singleton_append]
      congr 2
      apply List.filter_congr
      intro y _
      by_cases hy : y ∈ list
      · simp [hy]
      · by_cases hye : y = e
        · simp [hy, hye]
        · simp [hy, hye]

theorem unique_eq_firstOccurrences (xs : List String) : unique xs = firstOccurrences xs := by
  have h := unique_loop_eq xs ∅ [] (by simp)
  simpa [unique] using h

theorem indexOf_filter_lt (p : String → Bool) (l : List String) (x y : String)
    (hx : x ∈ l) (hy : y ∈ l) (px : p x = true) (py : p y = true) :
    (l.filter p).indexOf x < (l.filter p).indexOf y ↔ l.indexOf x < l.indexOf y := by
  induction l with
  | nil => simp at hx
  | cons a t ih =>
    by_cases hax : a = x
    · subst hax
      rw [List.filter_cons_of_pos px, List.indexOf_cons_self, List.indexOf_cons_self]
      by_cases hay : a = y
      · subst hay
        simp [List.indexOf_cons_self]
      · rw [List.indexOf_cons_ne _ hay, List.indexOf_cons_ne _ hay]
        simp
    · by_cases hay : a = y
      · subst hay
        rw [List.filter_cons_of_pos py, List.indexOf_cons_self, List.indexOf_cons_self]
        simp
      · have hx2 : x ∈ t := by
          rcases List.mem_cons.mp hx with h | h
          · exact absurd h.symm hax
          · exact h
        have hy2 : y ∈ t := by
          rcases List.mem_cons.mp hy with h | h
          · exact absurd h.symm hay
          · exact h
        rw [List.indexOf_cons_ne _ hax, List.indexOf_cons_ne _ hay]
        by_cases pa : p a = true
        · rw [List.filter_cons_of_pos pa, List.indexOf_cons_ne _ hax,
            List.indexOf_cons_ne _ hay]
          simp only [Nat.succ_eq_add_one, Nat.add_lt_add_iff_right]
          exact ih hx2 hy2
        · rw [List.filter_cons_of_neg pa]
          simp only [Nat.succ_eq_add_one, Nat.add_lt_add_iff_right]
          exact ih hx2 hy2

theorem firstOccurrences_order (xs : List String) (x y : String)
    (hx : x ∈ xs) (hy : y ∈ xs) :
    (firstOccurrences xs).indexOf x < (firstOccurrences xs).indexOf y
      ↔ xs.indexOf x < xs.indexOf y := by
  induction xs with
  | nil => simp at hx
  | cons a t ih =>
    simp only [firstOccurrences]
    by_cases hax : a = x
    · subst hax
      rw [List.indexOf_cons_self, List.indexOf_cons_self]
      by_cases hay : a = y
      · subst hay
        simp [List.indexOf_cons_self]
      · rw [List.indexOf_cons_ne _ hay, List.indexOf_cons_ne _ hay]
        simp
    · by_cases hay : a = y
      · subst hay
        rw [List.indexOf_cons_self, List.indexOf_cons_self]
        simp
      · have hx2 : x ∈ t := by
          rcases List.mem_cons.mp hx with h | h
          · exact absurd h.symm hax
          · exact h
        have hy2 : y ∈ t := by
          rcases List.mem_cons.mp hy with h | h
          · exact absurd h.symm hay
          · exact h
        rw [List.indexOf_cons_ne _ hax, List.indexOf_cons_ne _ hay,
          List.indexOf_cons_ne _ hax, List.indexOf_cons_ne _ hay]
        simp only [Nat.succ_eq_add_one, Nat.add_lt_add_iff_right]
        rw [indexOf_filter_lt _ _ x y ((mem_firstOccurrences t x).mpr hx2)
          ((mem_firstOccurrences t y).mpr hy2) (by simpa using fun h => hax h.symm)
          (by simpa using fun h => hay h.symm)]
        exact ih hx2 hy2

/-- C17: for every list of strings xs, unique(xs) contains no string twice and
contains exactly the strings that occur in xs; it lists them in the order of
their first occurrence in xs: it is the list `firstOccurrences xs`, and of two
strings of xs the one that comes first in unique(xs) is the one whose first
occurrence in xs comes first.  So unique(xs) is a subsequence of xs, and
unique(unique(xs)) = unique(xs). -/
theorem unique_first_occurrence_order (xs : List String) :
    (unique xs).Nodup ∧
    (∀ x, x ∈ unique xs ↔ x ∈ xs) ∧
    unique xs = firstOccurrences xs ∧
    (∀ x y, x ∈ xs → y ∈ xs →
      ((unique xs).indexOf x < (unique xs).indexOf y ↔ xs.indexOf x < xs.indexOf y)) ∧
    (unique xs).Sublist xs ∧
    unique (unique xs) = unique xs := by
  refine ⟨unique_nodup xs, mem_unique xs, unique_eq_firstOccurrences xs, ?_, ?_, ?_⟩
  · intro x y hx hy
    rw [unique_eq_firstOccurrences]
    exact firstOccurrences_order xs x y hx hy
  · rw [unique_eq_firstOccurrences]
    exact firstOccurrences_sublist xs
  · rw [unique_eq_firstOccurrences (unique xs)]
    exact firstOccurrences_of_nodup _ (unique_nodup xs)

end core

namespace c2

/-! ## Persistence of listeners -/

theorem rand_Int31_lt (int63 : Nat) : rand.Int31 int63 < 2 ^ 31 := by
  unfold rand.Int31
  have h : int63 % 2 ^ 63 < 2 ^ 63 := Nat.mod_lt _ (by norm_num)
  rw [Nat.div_lt_iff_lt_mul (by norm_num)]
  norm_num at h ⊢
  exact h

theorem AppendRune_two (s0 s1 : Nat) (h0 : 0xC2 ≤ s0 ∧ s0 ≤ 0xDF)
    (h1 : 0x80 ≤ s1 ∧ s1 ≤ 0xBF) :
    AppendRune (s0 % 32 * 64 + s1 % 64) = [s0, s1] := by
  have ha : ¬ (s0 % 32 * 64 + s1 % 64 ≤ 0x7F) := by omega
  have hb : s0 % 32 * 64 + s1 % 64 ≤ 0x7FF := by omega
  have e0 : 0xC0 + (s0 % 32 * 64 + s1 % 64) / 64 = s0 := by omega
  have e1 : 0x80 + (s0 % 32 * 64 + s1 % 64) % 64 = s1 := by omega
  rw [AppendRune, if_neg ha, if_pos hb, e0, e1]

theorem AppendRune_three (s0 s1 s2 : Nat) (h0 : 0xE0 ≤ s0 ∧ s0 ≤ 0xEF)
    (h1 : 0x80 ≤ s1 ∧ s1 ≤ 0xBF) (h2 : 0x80 ≤ s2 ∧ s2 ≤ 0xBF)
    (hlo : s0 = 0xE0 → 0xA0 ≤ s1) (hhi : s0 = 0xED → s1 ≤ 0x9F) :
    AppendRune (s0 % 16 * 4096 + s1 % 64 * 64 + s2 % 64) = [s0, s1, s2] := by
  have ha : ¬ (s0 % 16 * 4096 + s1 % 64 * 64 + s2 % 64 ≤ 0x7F) := by omega
  have hb : ¬ (s0 % 16 * 4096 + s1 % 64 * 64 + s2 % 64 ≤ 0x7FF) := by omega
  have hc : ¬ (0x10FFFF < s0 % 16 * 4096 + s1 % 64 * 64 + s2 % 64
      ∨ (0xD800 ≤ s0 % 16 * 4096 + s1 % 64 * 64 + s2 % 64
        ∧ s0 % 16 * 4096 + s1 % 64 * 64 + s2 % 64 ≤ 0xDFFF)) := by omega
  have hd : s0 % 16 * 4096 + s1 % 64 * 64 + s2 % 64 ≤ 0xFFFF := by omega
  have e0 : 0xE0 + (s0 % 16 * 4096 + s1 % 64 * 64 + s2 % 64) / 4096 = s0 := by omega
  have e1 : 0x80 + (s0 % 16 * 4096 + s1 % 64 * 64 + s2 % 64) / 64 % 64 = s1 := by omega
  have e2 : 0x80 + (s0 % 16 * 4096 + s1 % 64 * 64 + s2 % 64) % 64 = s2 := by omega
  rw [AppendRune, if_neg ha, if_neg hb, if_neg hc, if_pos hd, e0, e1, e2]

theorem AppendRune_four (s0 s1 s2 s3 : Nat) (h0 : 0xF0 ≤ s0 ∧ s0 ≤ 0xF4)
    (h1 : 0x80 ≤ s1 ∧ s1 ≤ 0xBF) (h2 : 0x80 ≤ s2 ∧ s2 ≤ 0xBF)
    (h3 : 0x80 ≤ s3 ∧ s3 ≤ 0xBF)
    (hlo : s0 = 0xF0 → 0x90 ≤ s1) (hhi : s0 = 0xF4 → s1 ≤ 0x8F) :
    AppendRune (s0 % 8 * 262144 + s1 % 64 * 4096 + s2 % 64 * 64 + s3 % 64)
      = [s0, s1, s2, s3] := by
  have ha : ¬ (s0 % 8 * 262144 + s1 % 64 * 4096 + s2 % 64 * 64 + s3 % 64 ≤ 0x7F) := by
    omega
  have hb : ¬ (s0 % 8 * 262144 + s1 % 64 * 4096 + s2 % 64 * 64 + s3 % 64 ≤ 0x7FF) := by
    omega
  have hc : ¬ (0x10FFFF < s0 % 8 * 262144 + s1 % 64 * 4096 + s2 % 64 * 64 + s3 % 64
      ∨ (0xD800 ≤ s0 % 8 * 262144 + s1 % 64 * 4096 + s2 % 64 * 64 + s3 % 64
        ∧ s0 % 8 * 262144 + s1 % 64 * 4096 + s2 % 64 * 64 + s3 % 64 ≤ 0xDFFF)) := by
    omega
  have hd : ¬ (s0 % 8 * 262144 + s1 % 64 * 4096 + s2 % 64 * 64 + s3 % 64 ≤ 0xFFFF) := by
    omega
  have e0 : 0xF0 + (s0 % 8 * 262144 + s1 % 64 * 4096 + s2 % 64 * 64 + s3 % 64) / 262144
      = s0 := by omega
  have e1 : 0x80 + (s0 % 8 * 262144 + s1 % 64 * 4096 + s2 % 64 * 64 + s3 % 64) / 4096 % 64
      = s1 := by omega
  have e2 : 0x80 + (s0 % 8 * 262144 + s1 % 64 * 4096 + s2 % 64 * 64 + s3 % 64) / 64 % 64
      = s2 := by omega
  have e3 : 0x80 + (s0 % 8 * 262144 + s1 % 64 * 4096 + s2 % 64 * 64 + s3 % 64) % 64
      = s3 := by omega
  rw [AppendRune, if_neg ha, if_neg hb, if_neg hc, if_neg hd, e0, e1, e2, e3]

theorem first_some (s0 sz lo hi : Nat) (h : first s0 = some (sz, lo, hi)) :
    (sz = 2 ∧ 0xC2 ≤ s0 ∧ s0 ≤ 0xDF ∧ lo = 0x80 ∧ hi = 0xBF) ∨
    (sz = 3 ∧ 0xE0 ≤ s0 ∧ s0 ≤ 0xEF ∧ 0x80 ≤ lo ∧ hi ≤ 0xBF
      ∧ (s0 = 0xE0 → lo = 0xA0) ∧ (s0 = 0xED → hi = 0x9F)) ∨
    (sz = 4 ∧ 0xF0 ≤ s0 ∧ s0 ≤ 0xF4 ∧ 0x80 ≤ lo ∧ hi ≤ 0xBF
      ∧ (s0 = 0xF0 → lo = 0x90) ∧ (s0 = 0xF4 → hi = 0x8F)) := by
  unfold first at h
  split_ifs at h <;> simp only [Option.some.injEq, Prod.mk.injEq] at h <;>
    obtain ⟨rfl, rfl, rfl⟩ := h <;> omega

/-- Where DecodeRuneInString finds a valid encoding, AppendRune gives back the
bytes it consumed. -/
theorem decode_append (s0 : Nat) (t : GoString)
    (hne : ¬ ((DecodeRuneInString (s0 :: t)).1 = RuneError
      ∧ (DecodeRuneInString (s0 :: t)).2 = 1)) :
    AppendRune (DecodeRuneInString (s0 :: t)).1
        = (s0 :: t).take (DecodeRuneInString (s0 :: t)).2
      ∧ 1 ≤ (DecodeRuneInString (s0 :: t)).2 := by
  cases hf : first s0 with
  | none =>
    simp only [DecodeRuneInString, hf] at hne ⊢
    by_cases h : s0 < 0x80
    · rw [if_pos h]
      have h7 : s0 ≤ 0x7F := by omega
      exact ⟨by rw [AppendRune, if_pos h7]; rfl, le_refl _⟩
    · rw [if_neg h] at hne
      exact absurd ⟨rfl, rfl⟩ hne
  | some x =>
    obtain ⟨sz, lo, hi⟩ := x
    have hc := first_some s0 sz lo hi hf
    simp only [DecodeRuneInString, hf] at hne ⊢
    rcases t with _ | ⟨s1, t1⟩
    · exact absurd ⟨rfl, rfl⟩ hne
    · simp only at hne ⊢
      by_cases h1 : s1 < lo ∨ hi < s1
      · rw [if_pos h1] at hne
        exact absurd ⟨rfl, rfl⟩ hne
      · rw [if_neg h1] at hne ⊢
        by_cases h2 : sz ≤ 2
        · rw [if_pos h2]
          refine ⟨?_, by simp⟩
          exact AppendRune_two s0 s1 (by omega) (by omega)
        · rw [if_neg h2] at hne ⊢
          rcases t1 with _ | ⟨s2, t2⟩
          · exact absurd ⟨rfl, rfl⟩ hne
          · simp only at hne ⊢
            by_cases h3 : s2 < 0x80 ∨ 0xBF < s2
            · rw [if_pos h3] at hne
              exact absurd ⟨rfl, rfl⟩ hne
            · rw [if_neg h3] at hne ⊢
              by_cases h4 : sz ≤ 3
              · rw [if_pos h4]
                refine ⟨?_, by simp⟩
                exact AppendRune_three s0 s1 s2 (by omega) (by omega) (by omega)
                  (by omega) (by omega)
              · rw [if_neg h4] at hne ⊢
                rcases t2 with _ | ⟨s3, t3⟩
                · exact absurd ⟨rfl, rfl⟩ hne
                · simp only at hne ⊢
                  by_cases h5 : s3 < 0x80 ∨ 0xBF < s3
                  · rw [if_pos h5] at hne
                    exact absurd ⟨rfl, rfl⟩ hne
                  · rw [if_neg h5]
                    refine ⟨?_, by simp⟩
                    exact AppendRune_four s0 s1 s2 s3 (by omega) (by omega) (by omega)
                      (by omega) (by omega) (by omega)

theorem goString_cons (r : Nat) (rs : List Nat) :
    goString (r :: rs) = AppendRune r ++ goString rs := by
  simp [goString]

theorem goString_jsonString_loop (fuel : Nat) (s : GoString)
    (hv : ValidString.loop fuel s = true) :
    goString (jsonString.loop fuel s) = s := by
  induction fuel generalizing s with
  | zero =>
    cases s with
    | nil => rfl
    | cons a t => simp [ValidString.loop] at hv
  | succ n ih =>
    cases s with
    | nil => rfl
    | cons s0 t =>
      simp only [ValidString.loop] at hv
      by_cases he : (DecodeRuneInString (s0 :: t)).1 = RuneError
          ∧ (DecodeRuneInString (s0 :: t)).2 = 1
      · rw [if_pos he] at hv
        exact absurd hv (by decide)
      · rw [if_neg he] at hv
        obtain ⟨ha, _⟩ := decode_append s0 t he
        simp only [jsonString.loop]
        rw [goString_cons, ih _ hv, ha]
        exact List.take_append_drop _ _

/-- On a valid UTF-8 string, what json.Unmarshal stores for the JSON string
that json.Marshal wrote is the string itself. -/
theorem goString_jsonString (s : GoString) (hv : ValidString s = true) :
    goString (jsonString s) = s :=
  goString_jsonString_loop s.length s hv

theorem field_written_cons (k : String) (ov : Option JSONValue)
    (rest : List (String × Option JSONValue)) (name : String) :
    JSONObject.field (written ((k, ov) :: rest)) name
      = if k = name then
          (match JSONObject.field (written rest) name with
            | some v => some v
            | none => ov)
        else JSONObject.field (written rest) name := by
  by_cases hk : k = name
  · rw [if_pos hk]
    cases ov with
    | none =>
      simp only [written]
      cases JSONObject.field (written rest) name <;> rfl
    | some v => simp only [written, JSONObject.field, if_pos hk]
  · rw [if_neg hk]
    cases ov with
    | none => simp only [written]
    | some v =>
      simp only [written, JSONObject.field, if_neg hk]
      cases JSONObject.field (written rest) name <;> rfl

theorem field_written_nil (name : String) : JSONObject.field (written []) name = none := rfl

/-- The member json.Marshal writes under each name of a ListenerConfig. -/
theorem Marshal_fields (l : ListenerConfig) :
    (Marshal l).field "id" = some (.number l.ID) ∧
    (Marshal l).field "lhost" = omitempty l.LHost.isEmpty (.string (jsonString l.LHost)) ∧
    (Marshal l).field "lport" = omitempty (l.LPort == 0) (.number l.LPort) ∧
    (Marshal l).field "protocol"
      = omitempty l.Protocol.isEmpty (.string (jsonString l.Protocol)) ∧
    (Marshal l).field "name" = omitempty l.Name.isEmpty (.string (jsonString l.Name)) ∧
    (Marshal l).field "description"
      = omitempty l.Description.isEmpty (.string (jsonString l.Description)) ∧
    (Marshal l).field "dns_domains"
      = omitempty l.DNSDomains.isEmpty (.strings (l.DNSDomains.map jsonString)) ∧
    (Marshal l).field "enable_canaries"
      = omitempty (!l.EnableCanaries) (.bool l.EnableCanaries) ∧
    (Marshal l).field "http_domain"
      = omitempty l.HTTPDomain.isEmpty (.string (jsonString l.HTTPDomain)) ∧
    (Marshal l).field "secure" = omitempty (!l.Secure) (.bool l.Secure) ∧
    (Marshal l).field "certificate"
      = omitempty l.Certificate.isEmpty (.string (jsonString l.Certificate)) ∧
    (Marshal l).field "key" = omitempty l.Key.isEmpty (.string (jsonString l.Key)) ∧
    (Marshal l).field "lets_encrypt" = omitempty (!l.LetsEncrypt) (.bool l.LetsEncrypt) ∧
    (Marshal l).field "website"
      = omitempty l.Website.isEmpty (.string (jsonString l.Website)) ∧
    (Marshal l).field "implant_stage"
      = omitempty l.ImplantStage.isEmpty (.string (jsonString l.ImplantStage)) := by
  simp only [Marshal, ListenerConfig.members, field_written_cons, field_written_nil]
  refine ⟨?_, ?_, ?_, ?_, ?_, ?_, ?_, ?_, ?_, ?_, ?_, ?_, ?_, ?_, ?_⟩ <;> simp

theorem decodeString_omitempty (s : GoString) (hv : ValidString s = true) :
    decodeString (omitempty s.isEmpty (.string (jsonString s))) = .ok s := by
  cases s with
  | nil => rfl
  | cons a t =>
    simp only [omitempty, List.isEmpty_cons, Bool.false_eq_true, if_false, decodeString]
    rw [goString_jsonString _ hv]

theorem decodeBool_omitempty (b : Bool) :
    decodeBool (omitempty (!b) (.bool b)) = .ok b := by
  cases b <;> rfl

theorem decodeUint16_omitempty (n : Nat) (h : n < 2 ^ 16) :
    decodeUint16 (omitempty (n == 0) (.number n)) = .ok n := by
  by_cases h0 : n = 0
  · subst h0
    rfl
  · have hb : (n == 0) = false := by simpa using h0
    simp only [omitempty, hb, Bool.false_eq_true, if_false, decodeUint16]
    have : (0 : Int) ≤ n ∧ (n : Int) < 2 ^ 16 := by
      constructor
      · exact Int.ofNat_nonneg n
      · exact_mod_cast h
    rw [if_pos this]
    simp

theorem decodeInt32_number (i : Int) (h : -(2 ^ 31) ≤ i ∧ i < 2 ^ 31) :
    decodeInt32 (some (.number i)) = .ok i := by
  simp only [decodeInt32]
  rw [if_pos h]

theorem decodeStrings_omitempty (xs : List GoString)
    (hv : ∀ s ∈ xs, ValidString s = true) :
    decodeStrings (omitempty xs.isEmpty (.strings (xs.map jsonString))) = .ok xs := by
  cases xs with
  | nil => rfl
  | cons a t =>
    simp only [omitempty, List.isEmpty_cons, Bool.false_eq_true, if_false, decodeStrings,
      List.map_map]
    congr 1
    conv_rhs => rw [← List.map_id (a :: t)]
    apply List.map_congr_left
    intro s hs
    simp only [Function.comp, id]
    exact goString_jsonString s (hv s hs)

/-- Marshalling and unmarshalling a ListenerConfig gives it back, when its
integers are in the range of their types and its strings are valid UTF-8. -/
theorem Unmarshal_Marshal (l : ListenerConfig) (hr : l.inRange)
    (hv : l.validUTF8 = true) : Unmarshal (Marshal l) = .ok l := by
  obtain ⟨f1, f2, f3, f4, f5, f6, f7, f8, f9, f10, f11, f12, f13, f14, f15⟩ :=
    Marshal_fields l
  simp only [ListenerConfig.validUTF8, Bool.and_eq_true, List.all_eq_true] at hv
  obtain ⟨⟨⟨⟨⟨⟨⟨⟨⟨v1, v2⟩, v3⟩, v4⟩, v5⟩, v6⟩, v7⟩, v8⟩, v9⟩, v10⟩ := hv
  obtain ⟨r1, r2, r3⟩ := hr
  simp only [Unmarshal, f1, f2, f3, f4, f5, f6, f7, f8, f9, f10, f11, f12, f13, f14, f15,
    decodeInt32_number l.ID ⟨r1, r2⟩, decodeString_omitempty _ v1,
    decodeUint16_omitempty _ r3, decodeString_omitempty _ v2, decodeString_omitempty _ v3,
    decodeString_omitempty _ v4, decodeStrings_omitempty _ v5, decodeBool_omitempty,
    decodeString_omitempty _ v6, decodeString_omitempty _ v7, decodeString_omitempty _ v8,
    decodeString_omitempty _ v9, decodeString_omitempty _ v10]
  rfl

theorem decimalInt_natCast (n : Nat) : decimalInt (n : Int) = decimal n := by
  have h : ¬ ((n : Int) < 0) := by omega
  simp only [decimalInt, if_neg h, Int.toNat_ofNat]

theorem Sprintf_eq_keyFormat (protocol host : GoString) (port id : Nat) :
    Sprintf ListenerNamespace protocol host port (id : Int) = keyFormat protocol host port id := by
  have h : ListenerNamespace ++ lit "." = lit "listener." := by decide
  simp only [Sprintf, keyFormat, decimalInt_natCast, ← h, List.append_assoc]

theorem PersistMTLS_set (db : DB) (bucket : Bucket) (int63 : Nat) (job : Job)
    (lhost : GoString) (hb : db.GetBucket ListenerBucketName = .ok bucket) :
    (PersistMTLS db int63 job lhost).set
      = some (keyFormat job.Protocol lhost job.Port (rand.Int31 int63),
          Marshal { ID := rand.Int31 int63, LHost := lhost, LPort := job.Port,
                    Protocol := job.Protocol, Name := job.Name,
                    Description := job.Description }) := by
  simp only [PersistMTLS, hb, Sprintf_eq_keyFormat]

theorem PersistDNS_set (db : DB) (bucket : Bucket) (int63 : Nat) (job : Job)
    (enableCanaries : Bool) (dnsDomains : List GoString)
    (hb : db.GetBucket ListenerBucketName = .ok bucket) :
    (PersistDNS db int63 job enableCanaries dnsDomains).set
      = some (keyFormat job.Protocol [] job.Port (rand.Int31 int63),
          Marshal { ID := rand.Int31 int63, LPort := job.Port, Protocol := job.Protocol,
                    Name := job.Name, Description := job.Description,
                    DNSDomains := dnsDomains, EnableCanaries := enableCanaries }) := by
  simp only [PersistDNS, hb, Sprintf_eq_keyFormat]

theorem PersistHTTPS_set (db : DB) (bucket : Bucket) (int63 : Nat) (job : Job)
    (lhost cert key : GoString) (secure : Bool) (domain website : GoString)
    (letsEncrypt : Bool) (hb : db.GetBucket ListenerBucketName = .ok bucket) :
    (PersistHTTPS db int63 job lhost cert key secure domain website letsEncrypt).set
      = some (keyFormat job.Protocol lhost job.Port (rand.Int31 int63),
          Marshal { ID := rand.Int31 int63, LHost := lhost, LPort := job.Port,
                    Protocol := job.Protocol, Name := job.Name,
                    Description := job.Description, Secure := secure, Certificate := cert,
                    Key := key, HTTPDomain := domain, Website := website,
                    LetsEncrypt := letsEncrypt }) := by
  simp only [PersistHTTPS, hb, Sprintf_eq_keyFormat]

theorem PersistTCPStager_set (db : DB) (bucket : Bucket) (int63 : Nat) (job : Job)
    (lhost implantStage : GoString) (hb : db.GetBucket ListenerBucketName = .ok bucket) :
    (PersistTCPStager db int63 job lhost implantStage).set
      = some (keyFormat job.Protocol lhost job.Port (rand.Int31 int63),
          Marshal { ID := rand.Int31 int63, LHost := lhost, LPort := job.Port,
                    Protocol := job.Protocol, Name := job.Name,
                    Description := job.Description, ImplantStage := implantStage }) := by
  simp only [PersistTCPStager, hb, Sprintf_eq_keyFormat]

theorem PersistHTTPStager_set (db : DB) (bucket : Bucket) (int63 : Nat) (job : Job)
    (lhost implantStage : GoString) (hb : db.GetBucket ListenerBucketName = .ok bucket) :
    (PersistHTTPStager db int63 job lhost implantStage).set
      = some (keyFormat job.Protocol lhost job.Port (rand.Int31 int63),
          Marshal { ID := rand.Int31 int63, LHost := lhost, LPort := job.Port,
                    Protocol := job.Protocol, Name := job.Name,
                    Description := job.Description, ImplantStage := implantStage }) := by
  simp only [PersistHTTPStager, hb, Sprintf_eq_keyFormat]

theorem PersistHTTPSStager_set (db : DB) (bucket : Bucket) (int63 : Nat) (job : Job)
    (lhost implantStage : GoString) (hb : db.GetBucket ListenerBucketName = .ok bucket) :
    (PersistHTTPSStager db int63 job lhost implantStage).set
      = some (keyFormat job.Protocol lhost job.Port (rand.Int31 int63),
          Marshal { ID := rand.Int31 int63, LHost := lhost, LPort := job.Port,
                    Protocol := job.Protocol, Name := job.Name,
                    Description := job.Description, ImplantStage := implantStage }) := by
  simp only [PersistHTTPSStager, hb, Sprintf_eq_keyFormat]

/-- C12: for every job, every argument list and every generated id, when the
bucket is there, the key each Persist function (PersistMTLS, PersistDNS,
PersistHTTPS, PersistTCPStager, PersistHTTPStager, PersistHTTPSStager) passes
to bucket.Set is `listener.` ++ job.Protocol ++ `_` ++ host ++ `-` ++
decimal(job.Port) ++ `_` ++ decimal(id), where host is the host of the listener
written under that key (the argument lhost; the empty string for PersistDNS,
which has none) and id is the id stored in that record. -/
theorem Persist_key_format (db : DB) (bucket : Bucket) (int63 : Nat) (job : Job)
    (lhost cert key domain website implantStage : GoString)
    (secure letsEncrypt enableCanaries : Bool) (dnsDomains : List GoString)
    (hb : db.GetBucket ListenerBucketName = .ok bucket) :
    (∃ l : ListenerConfig,
      (PersistMTLS db int63 job lhost).set
        = some (keyFormat job.Protocol l.LHost job.Port (rand.Int31 int63), Marshal l) ∧
      l.LHost = lhost ∧ l.ID = rand.Int31 int63 ∧
      (Marshal l).field "id" = some (.number (rand.Int31 int63))) ∧
    (∃ l : ListenerConfig,
      (PersistDNS db int63 job enableCanaries dnsDomains).set
        = some (keyFormat job.Protocol l.LHost job.Port (rand.Int31 int63), Marshal l) ∧
      l.LHost = [] ∧ l.ID = rand.Int31 int63 ∧
      (Marshal l).field "id" = some (.number (rand.Int31 int63))) ∧
    (∃ l : ListenerConfig,
      (PersistHTTPS db int63 job lhost cert key secure domain website letsEncrypt).set
        = some (keyFormat job.Protocol l.LHost job.Port (rand.Int31 int63), Marshal l) ∧
      l.LHost = lhost ∧ l.ID = rand.Int31 int63 ∧
      (Marshal l).field "id" = some (.number (rand.Int31 int63))) ∧
    (∃ l : ListenerConfig,
      (PersistTCPStager db int63 job lhost implantStage).set
        = some (keyFormat job.Protocol l.LHost job.Port (rand.Int31 int63), Marshal l) ∧
      l.LHost = lhost ∧ l.ID = rand.Int31 int63 ∧
      (Marshal l).field "id" = some (.number (rand.Int31 int63))) ∧
    (∃ l : ListenerConfig,
      (PersistHTTPStager db int63 job lhost implantStage).set
        = some (keyFormat job.Protocol l.LHost job.Port (rand.Int31 int63), Marshal l) ∧
      l.LHost = lhost ∧ l.ID = rand.Int31 int63 ∧
      (Marshal l).field "id" = some (.number (rand.Int31 int63))) ∧
    (∃ l : ListenerConfig,
      (PersistHTTPSStager db int63 job lhost implantStage).set
        = some (keyFormat job.Protocol l.LHost job.Port (rand.Int31 int63), Marshal l) ∧
      l.LHost = lhost ∧ l.ID = rand.Int31 int63 ∧
      (Marshal l).field "id" = some (.number (rand.Int31 int63))) ∧
    (∀ (protocol host : GoString) (port id : Nat),
      keyFormat protocol host port id
        = lit "listener." ++ protocol ++ lit "_" ++ host ++ lit "-" ++ decimal port
            ++ lit "_" ++ decimal id) := by
  have base : ∀ l : ListenerConfig,
      (Marshal l).field "id" = some (.number l.ID) := fun l => (Marshal_fields l).1
  refine ⟨?_, ?_, ?_, ?_, ?_, ?_, fun _ _ _ _ => rfl⟩
  · exact ⟨{ ID := rand.Int31 int63, LHost := lhost, LPort := job.Port,
             Protocol := job.Protocol, Name := job.Name, Description := job.Description },
      PersistMTLS_set db bucket int63 job lhost hb, rfl, rfl, base _⟩
  · exact ⟨{ ID := rand.Int31 int63, LPort := job.Port, Protocol := job.Protocol,
             Name := job.Name, Description := job.Description, DNSDomains := dnsDomains,
             EnableCanaries := enableCanaries },
      PersistDNS_set db bucket int63 job enableCanaries dnsDomains hb, rfl, rfl, base _⟩
  · exact ⟨{ ID := rand.Int31 int63, LHost := lhost, LPort := job.Port,
             Protocol := job.Protocol, Name := job.Name, Description := job.Description,
             Secure := secure, Certificate := cert, Key := key, HTTPDomain := domain,
             Website := website, LetsEncrypt := letsEncrypt },
      PersistHTTPS_set db bucket int63 job lhost cert key secure domain website letsEncrypt
        hb, rfl, rfl, base _⟩
  · exact ⟨{ ID := rand.Int31 int63, LHost := lhost, LPort := job.Port,
             Protocol := job.Protocol, Name := job.Name, Description := job.Description,
             ImplantStage := implantStage },
      PersistTCPStager_set db bucket int63 job lhost implantStage hb, rfl, rfl, base _⟩
  · exact ⟨{ ID := rand.Int31 int63, LHost := lhost, LPort := job.Port,
             Protocol := job.Protocol, Name := job.Name, Description := job.Description,
             ImplantStage := implantStage },
      PersistHTTPStager_set db bucket int63 job lhost implantStage hb, rfl, rfl, base _⟩
  · exact ⟨{ ID := rand.Int31 int63, LHost := lhost, LPort := job.Port,
             Protocol := job.Protocol, Name := job.Name, Description := job.Description,
             ImplantStage := implantStage },
      PersistHTTPSStager_set db bucket int63 job lhost implantStage hb, rfl, rfl, base _⟩

theorem Persist_key_format_witness :
    okDB.GetBucket ListenerBucketName = .ok { Set := fun _ _ => none } ∧
    ∃ l : ListenerConfig,
      (PersistMTLS okDB (77 * 2 ^ 32) mtlsJob (lit "0.0.0.0")).set
        = some (keyFormat mtlsJob.Protocol l.LHost mtlsJob.Port (rand.Int31 (77 * 2 ^ 32)),
            Marshal l) ∧
      l.LHost = lit "0.0.0.0" ∧ l.ID = rand.Int31 (77 * 2 ^ 32) ∧
      (Marshal l).field "id" = some (.number (rand.Int31 (77 * 2 ^ 32))) :=
  ⟨rfl,
    (Persist_key_format okDB { Set := fun _ _ => none } (77 * 2 ^ 32) mtlsJob
      (lit "0.0.0.0") [] [] [] [] [] false false false [] rfl).1⟩

/-- C13 as stated fails: PersistMTLS is given a job whose name is the single
byte 0xFF, which is a Go string but not valid UTF-8.  The record it passes to
bucket.Set, once deserialized, has the name U+FFFD (the bytes EF BF BD), not
the name supplied. -/
theorem Persist_invalid_UTF8_not_reproduced :
    ValidString badNameJob.Name = false ∧
    ∃ key raw l,
      (PersistMTLS okDB (77 * 2 ^ 32) badNameJob (lit "0.0.0.0")).set = some (key, raw) ∧
      Unmarshal raw = .ok l ∧
      l.Name = [0xEF, 0xBF, 0xBD] ∧ l.Name ≠ badNameJob.Name :=
  ⟨by decide, _, _, _, rfl, rfl, rfl, by decide⟩

theorem ValidString_nil : ValidString [] = true := rfl

/-- C13 as amended: for every job and every argument values whose strings are
all valid UTF-8 (the port being a uint16), when the bucket is there,
deserializing the record a Persist function passes to bucket.Set succeeds and
yields a ListenerConfig whose fields are exactly the values supplied (the id
generated, lhost, job.Port, job.Protocol, job.Name, job.Description and the
fields of the protocol: dns_domains and enable_canaries for DNS; secure,
certificate, key, http_domain, website, lets_encrypt for HTTPS; implant_stage
for the stagers), every other field having its zero value; this holds also
when a supplied value is zero or empty and is left out of the object by
omitempty. -/
theorem Persist_round_trip_valid_UTF8 (db : DB) (bucket : Bucket) (int63 : Nat) (job : Job)
    (lhost cert key domain website implantStage : GoString)
    (secure letsEncrypt enableCanaries : Bool) (dnsDomains : List GoString)
    (hb : db.GetBucket ListenerBucketName = .ok bucket)
    (hport : job.Port < 2 ^ 16)
    (hjob : ValidString job.Protocol = true ∧ ValidString job.Name = true
      ∧ ValidString job.Description = true)
    (hargs : ValidString lhost = true ∧ ValidString cert = true ∧ ValidString key = true
      ∧ ValidString domain = true ∧ ValidString website = true
      ∧ ValidString implantStage = true)
    (hdns : ∀ d ∈ dnsDomains, ValidString d = true) :
    (∃ k raw, (PersistMTLS db int63 job lhost).set = some (k, raw) ∧
      Unmarshal raw = .ok
        { ID := rand.Int31 int63, LHost := lhost, LPort := job.Port,
          Protocol := job.Protocol, Name := job.Name, Description := job.Description }) ∧
    (∃ k raw, (PersistDNS db int63 job enableCanaries dnsDomains).set = some (k, raw) ∧
      Unmarshal raw = .ok
        { ID := rand.Int31 int63, LPort := job.Port, Protocol := job.Protocol,
          Name := job.Name, Description := job.Description, DNSDomains := dnsDomains,
          EnableCanaries := enableCanaries }) ∧
    (∃ k raw,
      (PersistHTTPS db int63 job lhost cert key secure domain website letsEncrypt).set
        = some (k, raw) ∧
      Unmarshal raw = .ok
        { ID := rand.Int31 int63, LHost := lhost, LPort := job.Port,
          Protocol := job.Protocol, Name := job.Name, Description := job.Description,
          Secure := secure, Certificate := cert, Key := key, HTTPDomain := domain,
          Website := website, LetsEncrypt := letsEncrypt }) ∧
    (∃ k raw, (PersistTCPStager db int63 job lhost implantStage).set = some (k, raw) ∧
      Unmarshal raw = .ok
        { ID := rand.Int31 int63, LHost := lhost, LPort := job.Port,
          Protocol := job.Protocol, Name := job.Name, Description := job.Description,
          ImplantStage := implantStage }) ∧
    (∃ k raw, (PersistHTTPStager db int63 job lhost implantStage).set = some (k, raw) ∧
      Unmarshal raw = .ok
        { ID := rand.Int31 int63, LHost := lhost, LPort := job.Port,
          Protocol := job.Protocol, Name := job.Name, Description := job.Description,
          ImplantStage := implantStage }) ∧
    (∃ k raw, (PersistHTTPSStager db int63 job lhost implantStage).set = some (k, raw) ∧
      Unmarshal raw = .ok
        { ID := rand.Int31 int63, LHost := lhost, LPort := job.Port,
          Protocol := job.Protocol, Name := job.Name, Description := job.Description,
          ImplantStage := implantStage }) := by
  obtain ⟨j1, j2, j3⟩ := hjob
  obtain ⟨a1, a2, a3, a4, a5, a6⟩ := hargs
  have hid : -(2 ^ 31) ≤ (rand.Int31 int63 : Int) ∧ (rand.Int31 int63 : Int) < 2 ^ 31 := by
    have h := rand_Int31_lt int63
    constructor
    · omega
    · exact_mod_cast h
  have hall : dnsDomains.all ValidString = true := List.all_eq_true.mpr hdns
  refine ⟨?_, ?_, ?_, ?_, ?_, ?_⟩
  · refine ⟨_, _, PersistMTLS_set db bucket int63 job lhost hb, Unmarshal_Marshal _ ?_ ?_⟩
    · exact ⟨hid.1, hid.2, hport⟩
    · simp [ListenerConfig.validUTF8, j1, j2, j3, a1, ValidString_nil]
  · refine ⟨_, _, PersistDNS_set db bucket int63 job enableCanaries dnsDomains hb,
      Unmarshal_Marshal _ ?_ ?_⟩
    · exact ⟨hid.1, hid.2, hport⟩
    · simp only [ListenerConfig.validUTF8, j1, j2, j3, hall, ValidString_nil, Bool.and_self]
  · refine ⟨_, _, PersistHTTPS_set db bucket int63 job lhost cert key secure domain website
      letsEncrypt hb, Unmarshal_Marshal _ ?_ ?_⟩
    · exact ⟨hid.1, hid.2, hport⟩
    · simp [ListenerConfig.validUTF8, j1, j2, j3, a1, a2, a3, a4, a5, ValidString_nil]
  · refine ⟨_, _, PersistTCPStager_set db bucket int63 job lhost implantStage hb,
      Unmarshal_Marshal _ ?_ ?_⟩
    · exact ⟨hid.1, hid.2, hport⟩
    · simp [ListenerConfig.validUTF8, j1, j2, j3, a1, a6, ValidString_nil]
  · refine ⟨_, _, PersistHTTPStager_set db bucket int63 job lhost implantStage hb,
      Unmarshal_Marshal _ ?_ ?_⟩
    · exact ⟨hid.1, hid.2, hport⟩
    · simp [ListenerConfig.validUTF8, j1, j2, j3, a1, a6, ValidString_nil]
  · refine ⟨_, _, PersistHTTPSStager_set db bucket int63 job lhost implantStage hb,
      Unmarshal_Marshal _ ?_ ?_⟩
    · exact ⟨hid.1, hid.2, hport⟩
    · simp [ListenerConfig.validUTF8, j1, j2, j3, a1, a6, ValidString_nil]

theorem Persist_round_trip_valid_UTF8_witness :
    okDB.GetBucket ListenerBucketName = .ok { Set := fun _ _ => none } ∧
    mtlsJob.Port < 2 ^ 16 ∧
    (ValidString mtlsJob.Protocol = true ∧ ValidString mtlsJob.Name = true
      ∧ ValidString mtlsJob.Description = true) ∧
    (ValidString (lit "0.0.0.0") = true ∧ ValidString [] = true ∧ ValidString [] = true
      ∧ ValidString [] = true ∧ ValidString [] = true ∧ ValidString [] = true) ∧
    (∀ d ∈ ([] : List GoString), ValidString d = true) ∧
    ∃ k raw, (PersistMTLS okDB (77 * 2 ^ 32) mtlsJob (lit "0.0.0.0")).set = some (k, raw) ∧
      Unmarshal raw = .ok
        { ID := rand.Int31 (77 * 2 ^ 32), LHost := lit "0.0.0.0", LPort := mtlsJob.Port,
          Protocol := mtlsJob.Protocol, Name := mtlsJob.Name,
          Description := mtlsJob.Description } :=
  ⟨rfl, by decide, by decide, by decide, by simp,
    (Persist_round_trip_valid_UTF8 okDB { Set := fun _ _ => none } (77 * 2 ^ 32) mtlsJob
      (lit "0.0.0.0") [] [] [] [] [] false false false [] rfl (by decide) (by decide)
      (by decide) (by simp)).1⟩

/-- C14 as stated fails: the random source can deliver a value whose top 31
bits are zero, and then rand.Int31 returns 0; the record PersistMTLS writes has
the id 0, which is not a nonzero id. -/
theorem Persist_id_can_be_zero :
    rand.Int31 0 = 0 ∧
    ∃ key raw, (PersistMTLS okDB 0 mtlsJob (lit "0.0.0.0")).set = some (key, raw) ∧
      raw.field "id" = some (.number 0) ∧ ¬ ((0 : Int) < 0) :=
  ⟨rfl, _, _, rfl, rfl, by decide⟩

/-- C14 as amended: for every listener persisted by a Persist function, the id
stored in the record is a 31-bit integer that is not negative, 0 ≤ id < 2^31,
for every value rand.Int31 can return; rand.Int31 can return each of these
values, zero included. -/
theorem Persist_id_range (db : DB) (bucket : Bucket) (int63 : Nat) (job : Job)
    (lhost cert key domain website implantStage : GoString)
    (secure letsEncrypt enableCanaries : Bool) (dnsDomains : List GoString)
    (hb : db.GetBucket ListenerBucketName = .ok bucket) :
    (∃ k l, (PersistMTLS db int63 job lhost).set = some (k, Marshal l) ∧
      0 ≤ l.ID ∧ l.ID < 2 ^ 31 ∧ (Marshal l).field "id" = some (.number l.ID)) ∧
    (∃ k l, (PersistDNS db int63 job enableCanaries dnsDomains).set = some (k, Marshal l) ∧
      0 ≤ l.ID ∧ l.ID < 2 ^ 31 ∧ (Marshal l).field "id" = some (.number l.ID)) ∧
    (∃ k l,
      (PersistHTTPS db int63 job lhost cert key secure domain website letsEncrypt).set
        = some (k, Marshal l) ∧
      0 ≤ l.ID ∧ l.ID < 2 ^ 31 ∧ (Marshal l).field "id" = some (.number l.ID)) ∧
    (∃ k l, (PersistTCPStager db int63 job lhost implantStage).set = some (k, Marshal l) ∧
      0 ≤ l.ID ∧ l.ID < 2 ^ 31 ∧ (Marshal l).field "id" = some (.number l.ID)) ∧
    (∃ k l, (PersistHTTPStager db int63 job lhost implantStage).set = some (k, Marshal l) ∧
      0 ≤ l.ID ∧ l.ID < 2 ^ 31 ∧ (Marshal l).field "id" = some (.number l.ID)) ∧
    (∃ k l, (PersistHTTPSStager db int63 job lhost implantStage).set = some (k, Marshal l) ∧
      0 ≤ l.ID ∧ l.ID < 2 ^ 31 ∧ (Marshal l).field "id" = some (.number l.ID)) ∧
    (∀ v : Nat, v < 2 ^ 31 → ∃ src : Nat, rand.Int31 src = v) := by
  have hlo : (0 : Int) ≤ (rand.Int31 int63 : Int) := Int.ofNat_nonneg _
  have hhi : (rand.Int31 int63 : Int) < 2 ^ 31 := by
    exact_mod_cast rand_Int31_lt int63
  refine ⟨?_, ?_, ?_, ?_, ?_, ?_, ?_⟩
  · exact ⟨_, _, PersistMTLS_set db bucket int63 job lhost hb, hlo, hhi,
      (Marshal_fields _).1⟩
  · exact ⟨_, _, PersistDNS_set db bucket int63 job enableCanaries dnsDomains hb, hlo, hhi,
      (Marshal_fields _).1⟩
  · exact ⟨_, _, PersistHTTPS_set db bucket int63 job lhost cert key secure domain website
      letsEncrypt hb, hlo, hhi, (Marshal_fields _).1⟩
  · exact ⟨_, _, PersistTCPStager_set db bucket int63 job lhost implantStage hb, hlo, hhi,
      (Marshal_fields _).1⟩
  · exact ⟨_, _, PersistHTTPStager_set db bucket int63 job lhost implantStage hb, hlo, hhi,
      (Marshal_fields _).1⟩
  · exact ⟨_, _, PersistHTTPSStager_set db bucket int63 job lhost implantStage hb, hlo, hhi,
      (Marshal_fields _).1⟩
  · intro v hv
    refine ⟨v * 2 ^ 32, ?_⟩
    unfold rand.Int31
    have h1 : v * 2 ^ 32 < 2 ^ 63 := by
      norm_num at hv ⊢
      omega
    rw [Nat.mod_eq_of_lt h1, Nat.mul_div_cancel _ (by norm_num)]

theorem Persist_id_range_witness :
    okDB.GetBucket ListenerBucketName = .ok { Set := fun _ _ => none } ∧
    ∃ k l, (PersistMTLS okDB (77 * 2 ^ 32) mtlsJob (lit "0.0.0.0")).set
        = some (k, Marshal l) ∧
      0 ≤ l.ID ∧ l.ID < 2 ^ 31 ∧ (Marshal l).field "id" = some (.number l.ID) :=
  ⟨rfl,
    (Persist_id_range okDB { Set := fun _ _ => none } (77 * 2 ^ 32) mtlsJob
      (lit "0.0.0.0") [] [] [] [] [] false false false [] rfl).1⟩

end c2
